import Mathlib

/-!
Verification of the resilient publish pipeline and connection manager of
`node-red-contrib-nats-suite`.  The definitions below are a shallow embedding
of `src/nodes/nats-suite-publish.js` and of the server/connection node
(`src/unnamed/part_008`): JavaScript objects become structures, mutable module
state becomes explicit state passing, `Date.now()` becomes a `now : Nat`
parameter (milliseconds), JS numbers that matter (token counts, delays) become
rationals, and JS strings that are only compared for truthiness/identity are
encoded as natural numbers where `0` plays the role of the falsy value
(empty string / number 0) and `Option.none` plays the role of `undefined`.
-/

namespace NatsSuite

/-- JS truthiness for an optional scalar field: `none` is `undefined`,
`some 0` is the falsy value (number `0` / empty string). -/
def truthy : Option Nat → Bool
  | none => false
  | some n => n != 0

/-- JS `a || b` on two optional scalars (used for `msg.topic || config.datapointid`
and the timestamp fallbacks). -/
def jsOr (a b : Option Nat) : Option Nat :=
  if truthy a then a else b

/-- JS `a || b` where `b` is a present scalar (used for
`msg._originalTimestamp || Date.now()`). -/
def jsOrD (a : Option Nat) (b : Nat) : Nat :=
  match a with
  | none => b
  | some n => if n = 0 then b else n

/-- A JavaScript payload value, as far as the `uns_value` datatype detection
in `nats-suite-publish.js` inspects it.  Numbers are modelled as rationals;
`Number.isInteger` becomes "denominator 1". -/
inductive JsVal
  | vstr (s : Nat)
  | vnum (q : ℚ)
  | vbool (b : Bool)
  | vobj
  | varr
  | vnull
  | vundefined
  deriving Repr, DecidableEq

/-- The event type string of the `event` data format (`msg.type`, defaulting
to `'point'`; any unrecognised string behaves like the final `else` branch). -/
inductive EventType
  | point
  | intervalStart
  | intervalEnd
  | otherType
  deriving Repr, DecidableEq

/-- The unit flowing through the pipeline: a Node-RED `msg` object restricted
to the fields `nats-suite-publish.js` reads or writes.  The internal flags
`_flushing`, `_batched`, `_rateLimited`, `_autoReplyProcessed` are booleans
(a deleted property reads as `false`); `_bufferSize` is the cached size, and
`payloadSize` stands for the byte length `JSON.stringify(msg)` would produce. -/
structure Msg where
  topic : Option Nat := none
  payload : JsVal := .vstr 1
  payloadSize : Nat := 1
  flushing : Bool := false
  batched : Bool := false
  rateLimited : Bool := false
  autoReplyProcessed : Bool := false
  originalTimestamp : Option Nat := none
  originalStartTime : Option Nat := none
  originalEndTime : Option Nat := none
  startTime : Option Nat := none
  endTime : Option Nat := none
  bufferSize : Option Nat := none
  unsreply : Option Nat := none
  replySubject : Option Nat := none
  mid : Option Nat := none
  midValid : Bool := true
  etype : Option EventType := none
  expiration : Option Nat := none
  deriving Repr, DecidableEq

/-- `calculateMessageSize`: returns the cached `_bufferSize` when the property
is present (a strict `!== undefined` check, so a cached `0` is used), otherwise
computes the stringified size and caches it on the message. -/
def calculateMessageSize (m : Msg) : Nat × Msg :=
  match m.bufferSize with
  | some s => (s, m)
  | none => (m.payloadSize, { m with bufferSize := some m.payloadSize })

/-- The message with its size cache filled in, as `bufferMessage` stores it. -/
def cacheSize (m : Msg) : Msg := (calculateMessageSize m).2

/-- `config.bufferSizeType`: capacity counted in messages or in bytes. -/
inductive SizeType
  | countMode
  | sizeMode
  deriving Repr, DecidableEq

/-- `config.bufferMode`: the overflow policy of the durable buffer. -/
inductive BufferMode
  | dropOldest
  | dropNewest
  | dropOnFull
  deriving Repr, DecidableEq

/-- The buffer-relevant part of the node configuration. -/
structure BufferCfg where
  sizeType : SizeType := .countMode
  bufferSize : Nat := 1000
  bufferSizeBytes : Nat := 10485760
  mode : BufferMode := .dropOldest
  deriving Repr, DecidableEq

/-- The durable buffer state: `messageQueue` and the overflow counter. -/
structure BufferState where
  messageQueue : List Msg := []
  droppedMessages : Nat := 0
  deriving Repr, DecidableEq

/-- `calculateBufferSize`: the cumulative cached byte size of the queue
(`msg._bufferSize || calculateMessageSize(msg)` per element; the performance
cache in the source always holds exactly this sum when valid). -/
def queueBytes (q : List Msg) : Nat :=
  q.foldl (fun acc m => acc + m.bufferSize.getD m.payloadSize) 0

/-- A thrown JavaScript exception (here: reading `._bufferSize` of the
`undefined` returned by `shift()` on an empty queue). -/
inductive JsError
  | typeError
  deriving Repr, DecidableEq

/-- `bufferMessage`: enqueue one message into the durable buffer, applying the
overflow policy when the capacity check fires.  Returns the new state and the
`true`/`false` result of the source function; under `drop-oldest` exactly one
oldest message is evicted before the push. -/
def bufferMessage (cfg : BufferCfg) (st : BufferState) (m : Msg) :
    Except JsError (BufferState × Bool) :=
  let (msgSize, m) := calculateMessageSize m
  let isFull : Bool :=
    match cfg.sizeType with
    | .countMode => decide (cfg.bufferSize ≤ st.messageQueue.length)
    | .sizeMode => decide (cfg.bufferSizeBytes < queueBytes st.messageQueue + msgSize)
  if isFull then
    match cfg.mode with
    | .dropOldest =>
      match st.messageQueue with
      | [] => .error .typeError
      | _ :: rest =>
        .ok ({ messageQueue := rest ++ [m],
               droppedMessages := st.droppedMessages + 1 }, true)
    | .dropNewest =>
      .ok ({ st with droppedMessages := st.droppedMessages + 1 }, false)
    | .dropOnFull =>
      .ok (st, false)
  else
    .ok ({ st with messageQueue := st.messageQueue ++ [m] }, true)

/-- Enqueue a whole list of messages one by one through `bufferMessage`. -/
def enqueueList (cfg : BufferCfg) (st : BufferState) : List Msg → Except JsError BufferState
  | [] => .ok st
  | m :: rest =>
    match bufferMessage cfg st m with
    | .error e => .error e
    | .ok (st', _) => enqueueList cfg st' rest

/-! ## Buffer persistence (`saveBuffer` / `loadBuffer`) -/

/-- `config.bufferPersistence`: which persistence backends are active. -/
inductive Persistence
  | noPersist
  | contextStore
  | fileStore
  | bothStores
  deriving Repr, DecidableEq

/-- Strip the internal processing flags, as the `delete cleanedMsg._flushing;
delete cleanedMsg._batched; delete cleanedMsg._rateLimited;
delete cleanedMsg._autoReplyProcessed` block does (a deleted boolean property
reads back as `false`). -/
def stripFlags (m : Msg) : Msg :=
  { m with flushing := false, batched := false, rateLimited := false,
           autoReplyProcessed := false }

/-- The per-message cleanup `loadBuffer` applies to every restored message:
strip the internal flags and, when the `_bufferSize` cache is missing
(the `!cleanedMsg._bufferSize` truthiness test; a cached `0` is recomputed to
the cached `0` again), fill it in from `calculateMessageSize`. -/
def cleanOnLoad (m : Msg) : Msg :=
  let m := stripFlags m
  match m.bufferSize with
  | none => { m with bufferSize := some m.payloadSize }
  | some _ => m

/-- The file-backend snapshot `{queue, droppedMessages, timestamp, nodeId}`. -/
structure FileBlob where
  queue : List Msg
  droppedMessages : Nat
  timestamp : Nat
  nodeId : Nat
  deriving Repr, DecidableEq

/-- The external storage both backends write into: the Node-RED context keys
`messageQueue` / `droppedMessages` and the buffer file. -/
structure Store where
  ctxQueue : Option (List Msg) := none
  ctxDropped : Option Nat := none
  fileData : Option FileBlob := none
  deriving Repr, DecidableEq

/-- Whether the context backend is active for this persistence setting. -/
def usesContext : Persistence → Bool
  | .contextStore | .bothStores => true
  | _ => false

/-- Whether the file backend is active for this persistence setting. -/
def usesFile : Persistence → Bool
  | .fileStore | .bothStores => true
  | _ => false

/-- `saveBuffer`: persist the buffer.  The cleaned queue (flags stripped) is
assembled once, but only the file backend writes it; the context backend
stores the live `messageQueue` object itself.  An empty queue is only written
out (as a clear) when `force` is set. -/
def saveBuffer (enableBuffer : Bool) (pers : Persistence) (st : BufferState)
    (store : Store) (now nodeId : Nat) (force : Bool) : Store :=
  if ¬ enableBuffer ∨ pers = .noPersist then store
  else if st.messageQueue = [] ∧ force then
    let store := if usesContext pers then
      { store with ctxQueue := some [], ctxDropped := some 0 } else store
    if usesFile pers then { store with fileData := none } else store
  else if st.messageQueue = [] then store
  else
    let cleanedQueue := st.messageQueue.map stripFlags
    let store := if usesContext pers then
      { store with ctxQueue := some st.messageQueue,
                   ctxDropped := some st.droppedMessages } else store
    if usesFile pers then
      { store with fileData := some ⟨cleanedQueue, st.droppedMessages, now, nodeId⟩ }
    else store

/-- `loadBuffer`: restore the buffer from storage into the current state.
The context backend is consulted first, then the file backend (which, under
`both`, overrides the context copy); a restored non-empty queue is then
cleaned per message by `cleanOnLoad`. -/
def loadBuffer (enableBuffer : Bool) (pers : Persistence) (store : Store)
    (st : BufferState) : BufferState :=
  if ¬ enableBuffer ∨ pers = .noPersist then st
  else
    let (st, loadedCtx) :=
      if usesContext pers then
        match store.ctxQueue with
        | some q =>
          if q ≠ [] then
            (⟨q, store.ctxDropped.getD 0⟩, true)
          else (st, false)
        | none => (st, false)
      else (st, false)
    let (st, loadedFile) :=
      if usesFile pers then
        match store.fileData with
        | some b =>
          if b.queue ≠ [] then
            (⟨b.queue, b.droppedMessages⟩, true)
          else (st, false)
        | none => (st, false)
      else (st, false)
    if (loadedCtx ∨ loadedFile) ∧ st.messageQueue ≠ [] then
      { st with messageQueue := st.messageQueue.map cleanOnLoad }
    else st

/-! ## Token-bucket rate limiter -/

/-- `config.rateLimitAction`. -/
inductive RateAction
  | dropAction
  | dropWarn
  | delayAction
  deriving Repr, DecidableEq

/-- `config.batchMode`. -/
inductive BatchMode
  | sizeTrigger
  | timeTrigger
  | hybrid
  deriving Repr, DecidableEq

/-- `config.dataformat`. -/
inductive DataFormat
  | jsonFmt
  | stringFmt
  | bufferFmt
  | replyFmt
  | unsValue
  | eventFmt
  | specificTopic
  | unknownFmt
  deriving Repr, DecidableEq

/-- The configuration of one publish node, restricted to what the embedded
logic reads. -/
structure NodeCfg where
  enableAutoReply : Bool := false
  enableBuffer : Bool := false
  bufferCfg : BufferCfg := {}
  enableBatch : Bool := false
  batchSize : Nat := 100
  batchMode : BatchMode := .hybrid
  enableRateLimit : Bool := false
  rateLimit : Nat := 100
  rateLimitWindow : Nat := 1000
  rateLimitBurst : Nat := 20
  rateLimitAction : RateAction := .dropAction
  dataformat : DataFormat := .jsonFmt
  datapointid : Option Nat := none
  configName : Nat := 0
  datatypeOverride : Option Nat := none
  deriving Repr, DecidableEq

/-- The mutable state of one publish node (module-level `let` bindings of the
source), together with the connection status it reads from the server node. -/
structure NodeState where
  connected : Bool := false
  buf : BufferState := {}
  batchQueue : List Msg := []
  tokenBucket : ℚ := 0
  lastRefillTime : Nat := 0
  droppedByRateLimit : Nat := 0
  delayQueue : List Msg := []
  isFlushing : Bool := false
  isBatchProcessing : Bool := false
  intervalId : Option Nat := none
  deriving Repr, DecidableEq

/-- The bucket capacity `rateLimit + rateLimitBurst`. -/
def capacity (cfg : NodeCfg) : ℚ := (cfg.rateLimit : ℚ) + cfg.rateLimitBurst

/-- `tokensPerMs = rateLimit / rateLimitWindow`. -/
def tokensPerMs (cfg : NodeCfg) : ℚ := (cfg.rateLimit : ℚ) / cfg.rateLimitWindow

/-- `refillTokens`: add tokens for the elapsed wall-clock time, capped at the
capacity, and reset the refill clock. -/
def refillTokens (cfg : NodeCfg) (st : NodeState) (now : Nat) : NodeState :=
  let elapsed : ℚ := (now : ℚ) - (st.lastRefillTime : ℚ)
  { st with
    tokenBucket := min (st.tokenBucket + elapsed * tokensPerMs cfg) (capacity cfg),
    lastRefillTime := now }

/-- `consumeToken`: take one token when at least one is available. -/
def consumeToken (st : NodeState) : NodeState × Bool :=
  if 1 ≤ st.tokenBucket then ({ st with tokenBucket := st.tokenBucket - 1 }, true)
  else (st, false)

/-- `canSendMessage`: refill, then test for a whole token. -/
def canSendMessage (cfg : NodeCfg) (st : NodeState) (now : Nat) : NodeState × Bool :=
  let st := refillTokens cfg st now
  (st, decide (1 ≤ st.tokenBucket))

/-! ## The publish step (the tail of the input handler) -/

/-- The subject a publish call receives. -/
inductive SubjectVal
  | plain (s : Nat)
  | unsSubject (dp : Option Nat)
  | eventSubject (dp : Option Nat)
  | replyTo (s : Nat)
  deriving Repr, DecidableEq

/-- What reaches `natsnc.publish`: the subject plus the timestamp-bearing
fields of the assembled message body that the claims inspect. -/
structure PubRecord where
  subject : SubjectVal
  timestamp : Option Nat := none
  datatype : Option Nat := none
  startTime : Option Nat := none
  endTime : Option Nat := none
  eid : Option Nat := none
  deriving Repr, DecidableEq

/-- The delivery outcome of one pass through the input handler. -/
inductive Outcome
  | autoReplyForwarded
  | warnedConnectionLost
  | buffered (added : Bool)
  | bufferThrew
  | errNotConnected
  | rateDropped
  | rateDroppedWarn
  | rateDelayed
  | batchQueued
  | errNoSubject
  | published (p : PubRecord)
  | errDatatypeMismatch
  | unsUnknownType
  | errInvalidUUID
  | errNoReplySubject
  | errUnknownFormat
  deriving Repr, DecidableEq

/-- The `typeof` operator restricted to the cases the source distinguishes. -/
inductive JsType
  | tstr
  | tnum
  | tbool
  | tobj
  | tundefined
  deriving Repr, DecidableEq

/-- JS `typeof` (note `typeof null` and `typeof []` are both `'object'`). -/
def jsTypeof : JsVal → JsType
  | .vstr _ => .tstr
  | .vnum _ => .tnum
  | .vbool _ => .tbool
  | .vobj | .varr | .vnull => .tobj
  | .vundefined => .tundefined

/-- `Number.isInteger` on the rational model of a JS number. -/
def isIntegerVal : JsVal → Bool
  | .vnum q => q.den == 1
  | _ => false

/-- The manual-override validation of the `uns_value` branch: whether the
selected datatype mismatches the actual payload (a datatype outside 1..6 hits
no switch case and validates vacuously). -/
def unsMismatch (dt : Nat) (v : JsVal) (now : Nat) : Bool :=
  match dt with
  | 1 => !(jsTypeof v == .tnum && isIntegerVal v)
  | 2 => !(jsTypeof v == .tnum && !isIntegerVal v)
  | 3 => !(jsTypeof v == .tbool)
  | 4 => !(jsTypeof v == .tstr)
  | 5 =>
    match v with
    | .vnum q => !(decide (0 ≤ q) && decide (q ≤ (now : ℚ) + 86400000))
    | _ => true
  | 6 => !(jsTypeof v == .tobj) || v == .varr || v == .vnull
  | _ => false

/-- The automatic datatype detection of the `uns_value` branch; `none` is the
`default` branch that logs and returns without publishing. -/
def unsAutoDatatype (v : JsVal) (now : Nat) : Option Nat :=
  match v with
  | .vstr _ => some 4
  | .vnum q =>
    if q.den = 1 ∧ (now : ℚ) - 86400000 ≤ q ∧ q ≤ (now : ℚ) + 86400000 then some 5
    else if q.den = 1 then some 1
    else some 2
  | .vbool _ => some 3
  | .vobj | .varr | .vnull => some 6
  | .vundefined => none

/-- The `uns_value` case of the format switch: datatype selection/validation,
then `message.timestamp = msg._originalTimestamp || Date.now()` and the
subject `'uns.' + config.datapointid`. -/
def unsValuePublish (cfg : NodeCfg) (m : Msg) (now : Nat) : Outcome :=
  match cfg.datatypeOverride with
  | some dt =>
    if unsMismatch dt m.payload now then .errDatatypeMismatch
    else .published { subject := .unsSubject cfg.datapointid,
                      datatype := some dt,
                      timestamp := some (jsOrD m.originalTimestamp now) }
  | none =>
    match unsAutoDatatype m.payload now with
    | none => .unsUnknownType
    | some dt =>
      .published { subject := .unsSubject cfg.datapointid,
                   datatype := some dt,
                   timestamp := some (jsOrD m.originalTimestamp now) }

/-- The `event` case of the format switch: UUID handling (the regex test is
abstracted to the per-message validity flag `midValid`; `generateUUID` becomes
the `fresh` parameter), interval-id context storage, and the timestamp logic
that prefers `_originalStartTime`/`_originalEndTime` over the current time. -/
def eventPublish (cfg : NodeCfg) (st : NodeState) (m : Msg) (now fresh : Nat) :
    NodeState × Outcome :=
  let eventType := m.etype.getD .point
  if truthy m.mid ∧ ¬ m.midValid then (st, .errInvalidUUID)
  else
    let (st, eid) :=
      if truthy m.mid then
        (if eventType = .intervalStart ∨ eventType = .intervalEnd then
           { st with intervalId := m.mid } else st, m.mid.getD 0)
      else
        match eventType with
        | .intervalStart => ({ st with intervalId := some fresh }, fresh)
        | .intervalEnd =>
          match st.intervalId with
          | some sid => (st, sid)
          | none => (st, fresh)
        | _ => (st, fresh)
    let stamps : Option Nat × Option Nat :=
      match eventType with
      | .point =>
        let pt := jsOrD (jsOr m.originalStartTime m.startTime) now
        (some pt, some pt)
      | .intervalStart =>
        (some (jsOrD (jsOr m.originalStartTime m.startTime) now), none)
      | .intervalEnd =>
        (none, some (jsOrD (jsOr m.originalEndTime m.endTime) now))
      | .otherType =>
        ((if truthy (jsOr m.originalStartTime m.startTime) then
            jsOr m.originalStartTime m.startTime else none),
         (if truthy (jsOr m.originalEndTime m.endTime) then
            jsOr m.originalEndTime m.endTime else none))
    (st, .published { subject := .eventSubject cfg.datapointid,
                      eid := some eid,
                      startTime := stamps.1, endTime := stamps.2 })

/-- The publish step the handler reaches after the connectivity, rate-limit
and batch gates: the `msg.topic || config.datapointid` subject check followed
by the data-format switch. -/
def doPublish (cfg : NodeCfg) (st : NodeState) (m : Msg) (now fresh : Nat) :
    NodeState × Outcome :=
  let subject := jsOr m.topic cfg.datapointid
  if ¬ truthy subject then (st, .errNoSubject)
  else
    match cfg.dataformat with
    | .jsonFmt | .stringFmt | .bufferFmt | .specificTopic =>
      (st, .published { subject := .plain (subject.getD 0) })
    | .replyFmt =>
      if ¬ truthy m.unsreply ∧ ¬ truthy m.replySubject then (st, .errNoReplySubject)
      else (st, .published { subject := .replyTo ((jsOr m.unsreply m.replySubject).getD 0) })
    | .unsValue => (st, unsValuePublish cfg m now)
    | .eventFmt => eventPublish cfg st m now fresh
    | .unknownFmt => (st, .errUnknownFormat)

/-! ## The input handler -/

/-- The timestamp recording shared by the buffering branch and `addToBatch`:
set `_originalTimestamp` when absent, and for the `event` format also save the
original start/end times when the message carries them. -/
def recordOriginalTimes (cfg : NodeCfg) (m : Msg) (now : Nat) : Msg :=
  let m := if truthy m.originalTimestamp then m
           else { m with originalTimestamp := some now }
  if cfg.dataformat = .eventFmt then
    let m := if truthy m.startTime ∧ ¬ truthy m.originalStartTime then
               { m with originalStartTime := m.startTime } else m
    if truthy m.endTime ∧ ¬ truthy m.originalEndTime then
      { m with originalEndTime := m.endTime } else m
  else m

/-- `addToBatch`: record original timestamps and append to the batch queue.
(The synchronous size-trigger check that may start `publishBatch` is modelled
separately by `batchSizeTriggered` / `publishBatch`.) -/
def addToBatch (cfg : NodeCfg) (st : NodeState) (m : Msg) (now : Nat) : NodeState :=
  let m := recordOriginalTimes cfg m now
  { st with batchQueue := st.batchQueue ++ [m] }

/-- The size-trigger condition checked at the end of `addToBatch`. -/
def batchSizeTriggered (cfg : NodeCfg) (st : NodeState) : Bool :=
  !st.isBatchProcessing &&
  (cfg.batchMode == .sizeTrigger || cfg.batchMode == .hybrid) &&
  decide (cfg.batchSize ≤ st.batchQueue.length)

/-- The batch gate and everything after it on the connected path. -/
def connectedTail (cfg : NodeCfg) (st : NodeState) (m : Msg) (now fresh : Nat) :
    NodeState × Outcome :=
  if cfg.enableBatch && !m.batched && !m.flushing && !m.rateLimited then
    (addToBatch cfg st m now, .batchQueued)
  else doPublish cfg st m now fresh

/-- One pass of the `node.on('input')` handler: auto-reply forwarding, the
connectivity check (buffering when disconnected), the token-bucket gate, the
batch gate, and finally the publish step. -/
def onInput (cfg : NodeCfg) (st : NodeState) (m : Msg) (now fresh : Nat) :
    NodeState × Outcome :=
  if cfg.enableAutoReply && !m.autoReplyProcessed then (st, .autoReplyForwarded)
  else if !st.connected then
    if m.flushing || m.batched then (st, .warnedConnectionLost)
    else if cfg.enableBuffer then
      let m := recordOriginalTimes cfg m now
      match bufferMessage cfg.bufferCfg st.buf m with
      | .ok (buf', added) => ({ st with buf := buf' }, .buffered added)
      | .error _ => (st, .bufferThrew)
    else (st, .errNotConnected)
  else if cfg.enableRateLimit && !m.rateLimited && !m.batched && !m.flushing then
    let (st1, can) := canSendMessage cfg st now
    if !can then
      let st2 := { st1 with droppedByRateLimit := st1.droppedByRateLimit + 1 }
      match cfg.rateLimitAction with
      | .dropAction => (st2, .rateDropped)
      | .dropWarn => (st2, .rateDroppedWarn)
      | .delayAction => ({ st2 with delayQueue := st2.delayQueue ++ [m] }, .rateDelayed)
    else
      connectedTail cfg (consumeToken st1).1 m now fresh
  else connectedTail cfg st m now fresh

/-! ## Buffer flush and delay-queue processing -/

/-- The per-message cleanup `flushBuffer` performs before re-injection:
delete all stale flags, then mark the message `_flushing`. -/
def flushClean (m : Msg) : Msg :=
  { m with flushing := true, batched := false, rateLimited := false,
           autoReplyProcessed := false }

/-- Re-inject a list of flushed messages through the input handler, one
`node.receive` per message.  `conn i` is the connection status the handler
observes for the i-th message (connectivity may flip mid-flush). -/
def flushReceive (cfg : NodeCfg) (st : NodeState) (ms : List Msg)
    (conn : Nat → Bool) (i now fresh : Nat) : NodeState × List (Msg × Outcome) :=
  match ms with
  | [] => (st, [])
  | m :: rest =>
    let p := onInput cfg { st with connected := conn i } m now fresh
    let q := flushReceive cfg p.1 rest conn (i + 1) now fresh
    (q.1, (m, p.2) :: q.2)

/-- The result of a `flushBuffer` call: the final state, the per-message
outcomes, and whether the initial connectivity check aborted the flush and
re-queued the untouched snapshot. -/
structure FlushOut where
  st : NodeState
  results : List (Msg × Outcome)
  abortedRequeued : Bool
  deriving Repr, DecidableEq

/-- `flushBuffer`: guard against concurrent flushes, snapshot-and-clear the
queue, abort (re-queueing everything) if the connection is already gone,
otherwise re-inject every message with the `_flushing` mark and finally reset
the dropped counter. -/
def flushBuffer (cfg : NodeCfg) (st : NodeState) (conn : Nat → Bool)
    (now fresh : Nat) : FlushOut :=
  if st.isFlushing then ⟨st, [], false⟩
  else if st.buf.messageQueue = [] then ⟨st, [], false⟩
  else
    let queueCopy := st.buf.messageQueue
    let st1 := { st with isFlushing := true,
                         buf := { st.buf with messageQueue := [] } }
    if ¬ st1.connected then
      ⟨{ st1 with buf := { st1.buf with messageQueue := queueCopy },
                  isFlushing := false }, [], true⟩
    else
      let cleaned := queueCopy.map flushClean
      let p := flushReceive cfg st1 cleaned conn 0 now fresh
      ⟨{ p.1 with buf := { p.1.buf with droppedMessages := 0 },
                  isFlushing := false }, p.2, false⟩

/-- One iteration of the `processDelayQueue` drain loop: if a token is
available, pop the head of the delay queue, consume a token, mark the message
`_rateLimited` and re-inject it through the input handler. -/
def processDelayStep (cfg : NodeCfg) (st : NodeState) (now fresh : Nat) :
    NodeState × Option Outcome :=
  match st.delayQueue with
  | [] => (st, none)
  | dm :: rest =>
    let (st1, can) := canSendMessage cfg st now
    if can then
      let st2 := (consumeToken { st1 with delayQueue := rest }).1
      let dm := { dm with rateLimited := true }
      let p := onInput cfg st2 dm now fresh
      (p.1, some p.2)
    else (st1, none)

/-! ## Connection manager (`src/unnamed/part_008`) -/

/-- The connection status the server node broadcasts. -/
inductive ConnStatus
  | disconnected
  | connecting
  | connected
  deriving Repr, DecidableEq

/-- The server node's connection state. -/
structure ConnState where
  hasConnection : Bool := false
  status : ConnStatus := .disconnected
  reconnectAttempts : Nat := 0
  deriving Repr, DecidableEq

/-- The observable result of an async call into the manager: the new state,
the status events emitted (in order), and whether the call rejected — i.e.
threw to the caller awaiting it. -/
structure ConnCall where
  st : ConnState
  events : List ConnStatus
  threw : Bool
  deriving Repr, DecidableEq

/-- `connectNats`: set `connecting` and bump the attempt counter, then either
establish the connection (resetting the counter) or — in the `catch` block —
set `disconnected`, emit, and re-throw the error to the awaiting caller. -/
def connectNats (st : ConnState) (ok : Bool) : ConnCall :=
  let st1 : ConnState := { st with status := .connecting,
                                   reconnectAttempts := st.reconnectAttempts + 1 }
  if ok then
    ⟨{ hasConnection := true, status := .connected, reconnectAttempts := 0 },
     [.connecting, .connected], false⟩
  else
    ⟨{ st1 with status := .disconnected }, [.connecting, .disconnected], true⟩

/-- `getConnection`: return the existing handle, or `await connectNats()` —
whose rejection propagates to the caller. -/
def getConnection (st : ConnState) (ok : Bool) : ConnCall :=
  if st.hasConnection then ⟨st, [], false⟩
  else connectNats st ok

/-! ## Reconnection backoff -/

/-- `exponentialDelay = min(baseDelay * 2^(attempt-1), maxDelay)` in
milliseconds, with baseDelay 5000 and maxDelay 60000. -/
def exponentialDelay (attempt : Nat) : ℚ :=
  min (5000 * (2 : ℚ) ^ ((attempt : ℤ) - 1)) 60000

/-- `jitter = exponentialDelay * 0.2 * (Math.random() - 0.5)`, with the random
draw `r ∈ [0,1)` passed explicitly. -/
def jitterOf (attempt : Nat) (r : ℚ) : ℚ :=
  exponentialDelay attempt * (1/5) * (r - 1/2)

/-- `finalDelay = Math.max(1000, exponentialDelay + jitter)`. -/
def finalDelay (attempt : Nat) (r : ℚ) : ℚ :=
  max 1000 (exponentialDelay attempt + jitterOf attempt r)

/-- Modelled from the spec (for comparison with `finalDelay`, which is the
code's computation): the delay with "uniform jitter of ±20% of the computed
delay, floored at 1s" — as `r` sweeps `[0,1)` the jitter term sweeps the
±20% band `[-0.2·d, 0.2·d)`. -/
def specFinalDelay (attempt : Nat) (r : ℚ) : ℚ :=
  max 1000 (exponentialDelay attempt + exponentialDelay attempt * (2/5) * (r - 1/2))

/-- One `startReconnection` attempt (with the re-entrancy guard already
clear): emit `connecting`, run `connectNats`, and on failure swallow the
error — reporting it only through a further `disconnected` emission — and
schedule the next attempt after `finalDelay`. -/
def startReconnectionStep (st : ConnState) (ok : Bool) (r : ℚ) : ConnCall × Option ℚ :=
  let c := connectNats { st with status := .connecting } ok
  if ok then
    (⟨{ c.st with status := .connected }, .connecting :: c.events ++ [.connected], false⟩,
     none)
  else
    (⟨{ c.st with status := .disconnected }, .connecting :: c.events ++ [.disconnected], false⟩,
     some (finalDelay c.st.reconnectAttempts r))

/-! ## Concrete instances and auxiliary state machines used by the theorems -/

/-- The byte-capacity overflow example: 1 KB capacity, three 300-byte
messages, then a 500-byte message. -/
def bmsg (n : Nat) : Msg := { payloadSize := n }

/-- The same message after `bufferMessage` has cached its size. -/
def bmsgC (n : Nat) : Msg := { payloadSize := n, bufferSize := some n }

/-- The byte-mode buffer configuration at the minimum allowed capacity. -/
def bytesCfg : BufferCfg :=
  { sizeType := .sizeMode, bufferSizeBytes := 1024, mode := .dropOldest }

/-- Two deliverable messages sitting in the buffer before a flush. -/
def flushMsgA : Msg := { topic := some 1 }

/-- The second buffered message of the C3 scenario. -/
def flushMsgB : Msg := { topic := some 2 }

/-- A publish node with buffering enabled and the default JSON format. -/
def flushCfg : NodeCfg := { enableBuffer := true }

/-- Connected node state holding the two messages in its durable buffer. -/
def flushSt : NodeState :=
  { connected := true,
    buf := { messageQueue := [flushMsgA, flushMsgB], droppedMessages := 0 } }

/-- A publish node with buffering and rate limiting (drop action) enabled. -/
def rlCfg : NodeCfg :=
  { enableBuffer := true, enableRateLimit := true, rateLimitAction := .dropAction }

/-- Disconnected state with an empty token bucket. -/
def rlSt : NodeState := { connected := false, tokenBucket := 0, lastRefillTime := 5 }

/-- A fresh submission with no internal flags. -/
def freshMsg : Msg := { topic := some 7, payloadSize := 10 }

/-- A delaying rate-limited configuration with batching enabled. -/
def delayCfg : NodeCfg :=
  { enableBatch := true, enableRateLimit := true, rateLimit := 2,
    rateLimitWindow := 1000, rateLimitBurst := 0, rateLimitAction := .delayAction }

/-- A connected state with one message waiting in the delay queue. -/
def delaySt : NodeState :=
  { connected := true, tokenBucket := 2, lastRefillTime := 0,
    delayQueue := [{ topic := some 5 }] }

/-- An event-format publish node with buffering enabled. -/
def tsCfg : NodeCfg :=
  { enableBuffer := true, dataformat := .eventFmt, datapointid := some 4 }

/-- A fresh event message with a start time, submitted while disconnected. -/
def tsMsg : Msg := { startTime := some 77, etype := some .point }

/-- Capacity-2 drop-oldest buffering configuration for the C6 scenario. -/
def c6Cfg : NodeCfg :=
  { enableBuffer := true,
    bufferCfg := { sizeType := .countMode, bufferSize := 2, mode := .dropOldest } }

/-- Five distinct deliverable messages enqueued while disconnected. -/
def c6Msgs : List Msg :=
  [{ topic := some 10 }, { topic := some 20 }, { topic := some 30 },
   { topic := some 40 }, { topic := some 50 }]

/-- A buffered message still carrying the `_rateLimited` processing flag
(a delayed re-submission that found the connection down gets buffered with
the flag set). -/
def flaggedMsg : Msg :=
  { topic := some 3, payloadSize := 8, rateLimited := true, bufferSize := some 8 }

/-- A non-empty buffer with a non-zero dropped counter. -/
def flaggedBuf : BufferState := { messageQueue := [flaggedMsg], droppedMessages := 2 }

/-- One operation on the token bucket: a clock-driven refill or a consume. -/
inductive TBOp
  | refillOp (now : Nat)
  | consumeOp
  deriving Repr, DecidableEq

/-- Apply one token-bucket operation. -/
def tbStep (cfg : NodeCfg) (st : NodeState) : TBOp → NodeState
  | .refillOp now => refillTokens cfg st now
  | .consumeOp => (consumeToken st).1

/-- Run a sequence of token-bucket operations. -/
def tbRun (cfg : NodeCfg) (st : NodeState) : List TBOp → NodeState
  | [] => st
  | op :: rest => tbRun cfg (tbStep cfg st op) rest

/-- One rate-limited submission attempt, as the handler performs it:
`canSendMessage` (refill + check) followed by `consumeToken` on success. -/
def rlSubmit (cfg : NodeCfg) (st : NodeState) (now : Nat) : NodeState × Bool :=
  let p := canSendMessage cfg st now
  if p.2 then ((consumeToken p.1).1, true) else (p.1, false)

/-- `n` immediate submission attempts, counting the successes. -/
def rlSubmitN (cfg : NodeCfg) (now : Nat) : Nat → NodeState → NodeState × Nat
  | 0, st => (st, 0)
  | n + 1, st =>
    let p := rlSubmit cfg st now
    let q := rlSubmitN cfg now n p.1
    (q.1, (if p.2 then 1 else 0) + q.2)

/-- A small concrete rate-limit configuration (rate 3, burst 2). -/
def tbCfg : NodeCfg := { enableRateLimit := true, rateLimit := 3, rateLimitBurst := 2 }

/-- A full bucket at instant 50. -/
def tbSt : NodeState :=
  { connected := true, tokenBucket := capacity tbCfg, lastRefillTime := 50 }

/-- An empty bucket. -/
def tbLowSt : NodeState := { tokenBucket := 0 }

/-! # Theorems -/

/-! ## C4: connect-failure propagation to `getConnection` callers -/

/-- C4 counterexample: with no live connection, a failing connect attempt DOES
propagate to the caller awaiting `getConnection` as a thrown error
(`connectNats` re-throws in its catch block and `getConnection` awaits it
without catching), refuting the claim that connect failures are never thrown
to such callers. -/
theorem C4_counterexample :
    (getConnection { hasConnection := false, status := .disconnected,
                     reconnectAttempts := 0 } false).threw = true := by
  decide

/-- C4 amended: a connect failure inside `getConnection` is thrown to the
awaiting caller (after emitting `connecting` then `disconnected`); it is only
the background reconnection loop (`startReconnection`) that never throws and
reports failures exclusively through status transitions — a `disconnected`
emission following `connecting` — while scheduling the next backoff attempt. -/
theorem C4_amended (st : ConnState) (r : ℚ) (h : st.hasConnection = false) :
    (getConnection st false).threw = true ∧
    (getConnection st false).events = [.connecting, .disconnected] ∧
    (startReconnectionStep st false r).1.threw = false ∧
    (startReconnectionStep st false r).1.events =
      [.connecting, .connecting, .disconnected, .disconnected] ∧
    (startReconnectionStep st false r).2 =
      some (finalDelay (st.reconnectAttempts + 1) r) := by
  refine ⟨?_, ?_, ?_, ?_, ?_⟩ <;>
    simp [getConnection, startReconnectionStep, connectNats, h]

/-- C4 witness. -/
theorem C4_amended_witness :
    (getConnection { hasConnection := false, status := .disconnected,
                     reconnectAttempts := 0 } false).threw = true ∧
    (getConnection { hasConnection := false, status := .disconnected,
                     reconnectAttempts := 0 } false).events =
      [.connecting, .disconnected] ∧
    (startReconnectionStep { hasConnection := false, status := .disconnected,
                             reconnectAttempts := 0 } false (1/2)).1.threw = false ∧
    (startReconnectionStep { hasConnection := false, status := .disconnected,
                             reconnectAttempts := 0 } false (1/2)).1.events =
      [.connecting, .connecting, .disconnected, .disconnected] ∧
    (startReconnectionStep { hasConnection := false, status := .disconnected,
                             reconnectAttempts := 0 } false (1/2)).2 =
      some (finalDelay 1 (1/2)) :=
  C4_amended { hasConnection := false, status := .disconnected,
               reconnectAttempts := 0 } (1/2) rfl

/-! ## C5: reconnect backoff and jitter -/

/-- C5 counterexample: at attempt 1 with random draw 0.9 the code's delay is
5400 ms (jitter `±10%`: `d * 0.2 * (r - 0.5)`), while the claimed
"uniform jitter of ±20% of the computed delay" yields 5800 ms — the two
computations differ. -/
theorem C5_counterexample :
    finalDelay 1 (9/10) = 5400 ∧ specFinalDelay 1 (9/10) = 5800 ∧
    finalDelay 1 (9/10) ≠ specFinalDelay 1 (9/10) := by
  norm_num [finalDelay, specFinalDelay, exponentialDelay, jitterOf]

/-- Helper: for attempts ≥ 1 the exponential delay is at least the base. -/
theorem exponentialDelay_ge (a : Nat) (ha : 1 ≤ a) : 5000 ≤ exponentialDelay a := by
  unfold exponentialDelay
  have h1 : (1 : ℚ) ≤ (2 : ℚ) ^ ((a : ℤ) - 1) := by
    apply one_le_zpow₀ (by norm_num)
    omega
  have : (5000 : ℚ) ≤ 5000 * (2 : ℚ) ^ ((a : ℤ) - 1) := by nlinarith
  exact le_min this (by norm_num)

/-- C5 amended: the successive delays (ignoring jitter) follow
5s, 10s, 20s, 40s, 60s, 60s, … and never exceed 60s, and for every failed
attempt `a ≥ 1` and random draw `r ∈ [0,1)` the scheduled delay equals the
exponential delay plus jitter `exponentialDelay · 0.2 · (r − 0.5)` — a
uniform jitter of ±10% (not ±20%) of the computed delay; the 1s floor in the
code therefore never engages. -/
theorem C5_amended (a : Nat) (r : ℚ) (ha : 1 ≤ a) (hr0 : 0 ≤ r) (hr1 : r < 1) :
    finalDelay a r = exponentialDelay a + jitterOf a r ∧
    |jitterOf a r| ≤ exponentialDelay a / 10 ∧
    exponentialDelay a ≤ 60000 ∧
    [1, 2, 3, 4, 5, 6].map exponentialDelay =
      [5000, 10000, 20000, 40000, 60000, 60000] := by
  have hd : 5000 ≤ exponentialDelay a := exponentialDelay_ge a ha
  have habs : |jitterOf a r| ≤ exponentialDelay a / 10 := by
    unfold jitterOf
    have h1 : |r - 1/2| ≤ 1/2 := by
      rw [abs_le]; constructor <;> linarith
    calc |exponentialDelay a * (1/5) * (r - 1/2)|
        = exponentialDelay a * (1/5) * |r - 1/2| := by
          rw [abs_mul, abs_of_nonneg (by positivity : (0:ℚ) ≤ exponentialDelay a * (1/5))]
      _ ≤ exponentialDelay a * (1/5) * (1/2) := by
          apply mul_le_mul_of_nonneg_left h1 (by positivity)
      _ = exponentialDelay a / 10 := by ring
  refine ⟨?_, habs, ?_, ?_⟩
  · unfold finalDelay
    have : (1000 : ℚ) ≤ exponentialDelay a + jitterOf a r := by
      have := abs_le.mp habs
      linarith
    exact max_eq_right this
  · exact min_le_right _ _
  · norm_num [exponentialDelay]

/-! ## Buffer enqueue lemmas (shared by C2 and C6) -/

/-- A non-full count-mode enqueue appends the size-cached message. -/
theorem bufferMessage_count_notFull (cfg : BufferCfg) (st : BufferState) (m : Msg)
    (h1 : cfg.sizeType = .countMode) (h : st.messageQueue.length < cfg.bufferSize) :
    bufferMessage cfg st m =
      .ok ({ st with messageQueue := st.messageQueue ++ [cacheSize m] }, true) := by
  simp only [bufferMessage, h1, cacheSize]
  rw [if_neg]
  simp [Nat.not_le.mpr h]

/-- A full count-mode drop-oldest enqueue evicts the head and appends. -/
theorem bufferMessage_count_full (cfg : BufferCfg) (st : BufferState) (m : Msg)
    (x : Msg) (q' : List Msg)
    (h1 : cfg.sizeType = .countMode) (h2 : cfg.mode = .dropOldest)
    (hq : st.messageQueue = x :: q') (h : cfg.bufferSize ≤ st.messageQueue.length) :
    bufferMessage cfg st m =
      .ok ({ messageQueue := q' ++ [cacheSize m],
             droppedMessages := st.droppedMessages + 1 }, true) := by
  simp only [bufferMessage, h1, h2, cacheSize]
  rw [if_pos]
  · simp [hq]
  · simpa using h

/-- Single-step count-mode capacity preservation, for every overflow policy. -/
theorem bufferMessage_count_le (cfg : BufferCfg) (st : BufferState) (m : Msg)
    (st' : BufferState) (b : Bool)
    (h1 : cfg.sizeType = .countMode)
    (hlen : st.messageQueue.length ≤ cfg.bufferSize)
    (hok : bufferMessage cfg st m = .ok (st', b)) :
    st'.messageQueue.length ≤ cfg.bufferSize := by
  rcases Nat.lt_or_ge st.messageQueue.length cfg.bufferSize with hlt | hge
  · rw [bufferMessage_count_notFull cfg st m h1 hlt] at hok
    cases hok
    simpa using hlt
  · have hfull : (decide (cfg.bufferSize ≤ st.messageQueue.length)) = true := by
      simpa using hge
    simp only [bufferMessage, h1, hfull, if_true] at hok
    cases hmode : cfg.mode <;> rw [hmode] at hok
    · cases hqq : st.messageQueue with
      | nil => rw [hqq] at hok; simp at hok
      | cons x q' =>
        rw [hqq] at hok
        simp only [Except.ok.injEq, Prod.mk.injEq] at hok
        rcases hok with ⟨hok, -⟩
        rw [← hok]
        have : st.messageQueue.length = q'.length + 1 := by simp [hqq]
        simp only [List.length_append, List.length_cons, List.length_nil]
        omega
    · simp only [Except.ok.injEq, Prod.mk.injEq] at hok
      rcases hok with ⟨hok, -⟩
      rw [← hok]
      simpa using hlen
    · simp only [Except.ok.injEq, Prod.mk.injEq] at hok
      rcases hok with ⟨hok, -⟩
      rw [← hok]
      exact hlen

/-- Count-mode capacity preservation extends over any enqueue sequence. -/
theorem enqueueList_count_le (cfg : BufferCfg) (h1 : cfg.sizeType = .countMode) :
    ∀ (ms : List Msg) (st : BufferState), st.messageQueue.length ≤ cfg.bufferSize →
      ∀ st', enqueueList cfg st ms = .ok st' →
        st'.messageQueue.length ≤ cfg.bufferSize := by
  intro ms
  induction ms with
  | nil =>
    intro st hlen st' hok
    cases hok
    exact hlen
  | cons m rest ih =>
    intro st hlen st' hok
    simp only [enqueueList] at hok
    cases hbm : bufferMessage cfg st m with
    | error e => rw [hbm] at hok; simp at hok
    | ok p =>
      rw [hbm] at hok
      exact ih p.1 (bufferMessage_count_le cfg st m p.1 p.2 h1 hlen hbm) st' hok

/-- Exact characterisation of a count-mode drop-oldest enqueue sequence: the
queue keeps the suffix of the (size-cached) inputs that fits the capacity and
the dropped counter absorbs the overflow. -/
theorem enqueueList_count_dropOldest (cfg : BufferCfg)
    (h1 : cfg.sizeType = .countMode) (h2 : cfg.mode = .dropOldest)
    (hC : 1 ≤ cfg.bufferSize) :
    ∀ (ms : List Msg) (q : List Msg) (d : Nat),
      q.length ≤ cfg.bufferSize →
      enqueueList cfg ⟨q, d⟩ ms = .ok
        { messageQueue := (q ++ ms.map cacheSize).drop
            (q.length + ms.length - cfg.bufferSize),
          droppedMessages := d + (q.length + ms.length - cfg.bufferSize) } := by
  intro ms
  induction ms with
  | nil =>
    intro q d hlen
    have hz : q.length - cfg.bufferSize = 0 := by omega
    simp [enqueueList, hz]
  | cons m rest ih =>
    intro q d hlen
    rcases Nat.lt_or_ge q.length cfg.bufferSize with hlt | hge
    · simp only [enqueueList,
        bufferMessage_count_notFull cfg ⟨q, d⟩ m h1 (by simpa using hlt)]
      have hstep := ih (q ++ [cacheSize m]) d (by simp; omega)
      rw [hstep]
      simp only [Except.ok.injEq, BufferState.mk.injEq]
      constructor
      · simp only [List.length_append, List.length_cons, List.length_nil,
          List.append_assoc, List.singleton_append, List.map_cons]
        congr 1
        omega
      · simp only [List.length_append, List.length_cons, List.length_nil]
        omega
    · have heq : q.length = cfg.bufferSize := le_antisymm hlen hge
      cases q with
      | nil => simp at heq; omega
      | cons x q' =>
        simp only [enqueueList,
          bufferMessage_count_full cfg ⟨x :: q', d⟩ m x q' h1 h2 rfl
            (by simpa using hge)]
        have hlen' : (q' ++ [cacheSize m]).length ≤ cfg.bufferSize := by
          simp only [List.length_append, List.length_cons, List.length_nil]
          simp only [List.length_cons] at heq
          omega
        rw [ih (q' ++ [cacheSize m]) (d + 1) hlen']
        simp only [Except.ok.injEq, BufferState.mk.injEq]
        simp only [List.length_cons] at heq
        constructor
        · simp only [List.length_append, List.length_cons, List.length_nil,
            List.append_assoc, List.singleton_append, List.map_cons,
            List.cons_append, List.nil_append, Nat.zero_add, Nat.add_zero]
          have ha : q'.length + 1 + rest.length - cfg.bufferSize = rest.length := by
            omega
          have hb : q'.length + 1 + (rest.length + 1) - cfg.bufferSize
              = rest.length + 1 := by omega
          rw [ha, hb, List.drop_succ_cons]
        · simp only [List.length_append, List.length_cons, List.length_nil]
          omega

/-! ## C2: buffer capacity invariant -/

/-- C2 counterexample: in bytes mode with drop-oldest, a single eviction need
not make room — after enqueueing 300+300+300-byte messages and then a
500-byte message into a 1024-byte buffer, the code evicts exactly one oldest
message and pushes, leaving 1100 cached bytes in a 1024-byte buffer: the
capacity invariant is violated by an enqueue-reachable state. -/
theorem C2_counterexample :
    enqueueList bytesCfg { messageQueue := [], droppedMessages := 0 }
        [bmsg 300, bmsg 300, bmsg 300, bmsg 500] =
      .ok { messageQueue := [bmsgC 300, bmsgC 300, bmsgC 500], droppedMessages := 1 } ∧
    queueBytes [bmsgC 300, bmsgC 300, bmsgC 500] = 1100 ∧
    bytesCfg.bufferSizeBytes < 1100 := by
  refine ⟨rfl, rfl, by decide⟩

/-- C2 amended: the synchronous capacity bound holds in count mode — every
enqueue from a within-capacity state stays within capacity, for each overflow
policy, and hence every state reachable by enqueues from the empty buffer
respects the message-count capacity.  In bytes mode drop-oldest evicts only
the single oldest message, so the cumulative cached byte size can exceed the
configured capacity (see the counterexample). -/
theorem C2_amended (cfg : BufferCfg) (h1 : cfg.sizeType = .countMode) :
    (∀ (st : BufferState) (m : Msg) (st' : BufferState) (b : Bool),
      st.messageQueue.length ≤ cfg.bufferSize →
      bufferMessage cfg st m = .ok (st', b) →
      st'.messageQueue.length ≤ cfg.bufferSize) ∧
    (∀ (ms : List Msg) (st' : BufferState),
      enqueueList cfg { messageQueue := [], droppedMessages := 0 } ms = .ok st' →
      st'.messageQueue.length ≤ cfg.bufferSize) := by
  constructor
  · intro st m st' b hlen hok
    exact bufferMessage_count_le cfg st m st' b h1 hlen hok
  · intro ms st' hok
    exact enqueueList_count_le cfg h1 ms _ (by simp) st' hok

/-- C2 witness. -/
theorem C2_amended_witness :
    (∀ (st : BufferState) (m : Msg) (st' : BufferState) (b : Bool),
      st.messageQueue.length ≤ ({ sizeType := .countMode, bufferSize := 2 } : BufferCfg).bufferSize →
      bufferMessage { sizeType := .countMode, bufferSize := 2 } st m = .ok (st', b) →
      st'.messageQueue.length ≤ ({ sizeType := .countMode, bufferSize := 2 } : BufferCfg).bufferSize) ∧
    (∀ (ms : List Msg) (st' : BufferState),
      enqueueList { sizeType := .countMode, bufferSize := 2 }
        { messageQueue := [], droppedMessages := 0 } ms = .ok st' →
      st'.messageQueue.length ≤ ({ sizeType := .countMode, bufferSize := 2 } : BufferCfg).bufferSize) :=
  C2_amended { sizeType := .countMode, bufferSize := 2 } rfl

/-! ## Input-handler lemmas (shared by C1, C3, C6, C9, C10) -/

/-- The publish step can change at most the stored interval id. -/
theorem doPublish_intervalOnly (cfg : NodeCfg) (st : NodeState) (m : Msg) (now fresh : Nat) :
    (doPublish cfg st m now fresh).1 =
      { st with intervalId := (doPublish cfg st m now fresh).1.intervalId } := by
  unfold doPublish eventPublish
  dsimp only
  repeat' split
  all_goals rfl

/-- The publish step never reports a batch-queued outcome. -/
theorem doPublish_not_batchQueued (cfg : NodeCfg) (st : NodeState) (m : Msg) (now fresh : Nat) :
    (doPublish cfg st m now fresh).2 ≠ .batchQueued := by
  unfold doPublish eventPublish unsValuePublish
  dsimp only
  repeat' split
  all_goals simp

/-- A flushed (`_flushing`) message hitting the handler while disconnected is
warned about and dropped, leaving the state untouched. -/
theorem onInput_flushing_disconnected (cfg : NodeCfg) (st : NodeState) (m : Msg)
    (now fresh : Nat) (hAR : cfg.enableAutoReply = false) (hfl : m.flushing = true)
    (hc : st.connected = false) :
    onInput cfg st m now fresh = (st, .warnedConnectionLost) := by
  simp [onInput, hAR, hfl, hc]

/-- A flushed message hitting the handler while connected skips the rate-limit
and batch gates and goes straight to the publish step. -/
theorem onInput_flushing_connected (cfg : NodeCfg) (st : NodeState) (m : Msg)
    (now fresh : Nat) (hAR : cfg.enableAutoReply = false) (hfl : m.flushing = true)
    (hc : st.connected = true) :
    onInput cfg st m now fresh = doPublish cfg st m now fresh := by
  simp [onInput, connectedTail, hAR, hfl, hc]

/-- Behaviour of the flush re-injection loop on a list of `_flushing`-marked
messages: every message is handled exactly once and in order, the durable
buffer and the flush guard are untouched, and every message met with a down
connection yields the connection-lost warning outcome. -/
theorem flushReceive_spec (cfg : NodeCfg) (hAR : cfg.enableAutoReply = false) :
    ∀ (ms : List Msg) (st : NodeState) (conn : Nat → Bool) (i now fresh : Nat),
      (∀ m ∈ ms, m.flushing = true) →
      (flushReceive cfg st ms conn i now fresh).2.map Prod.fst = ms ∧
      (flushReceive cfg st ms conn i now fresh).1.buf = st.buf ∧
      (flushReceive cfg st ms conn i now fresh).1.isFlushing = st.isFlushing ∧
      ∀ j, j < ms.length → conn (i + j) = false →
        ((flushReceive cfg st ms conn i now fresh).2.map Prod.snd)[j]? =
          some Outcome.warnedConnectionLost := by
  intro ms
  induction ms with
  | nil =>
    intro st conn i now fresh _
    refine ⟨rfl, rfl, rfl, ?_⟩
    intro j hj
    exact absurd hj (Nat.not_lt_zero j)
  | cons m rest ih =>
    intro st conn i now fresh hms
    have hm : m.flushing = true := hms m (List.mem_cons_self m rest)
    have hrest : ∀ m' ∈ rest, m'.flushing = true :=
      fun m' h => hms m' (List.mem_cons_of_mem m h)
    have hbuf1 : (onInput cfg { st with connected := conn i } m now fresh).1.buf
        = st.buf := by
      cases hc : conn i with
      | false =>
        rw [onInput_flushing_disconnected cfg _ m now fresh hAR hm (by simp [hc])]
      | true =>
        rw [onInput_flushing_connected cfg _ m now fresh hAR hm (by simp [hc]),
          doPublish_intervalOnly]
    have hisf1 : (onInput cfg { st with connected := conn i } m now fresh).1.isFlushing
        = st.isFlushing := by
      cases hc : conn i with
      | false =>
        rw [onInput_flushing_disconnected cfg _ m now fresh hAR hm (by simp [hc])]
      | true =>
        rw [onInput_flushing_connected cfg _ m now fresh hAR hm (by simp [hc]),
          doPublish_intervalOnly]
    have houtc : conn i = false →
        (onInput cfg { st with connected := conn i } m now fresh).2
          = .warnedConnectionLost := by
      intro hc
      rw [onInput_flushing_disconnected cfg _ m now fresh hAR hm (by simp [hc])]
    obtain ⟨ih1, ih2, ih3, ih4⟩ :=
      ih (onInput cfg { st with connected := conn i } m now fresh).1 conn (i + 1)
        now fresh hrest
    refine ⟨?_, ?_, ?_, ?_⟩
    · simp only [flushReceive]
      simp [ih1]
    · simp only [flushReceive]
      rw [ih2, hbuf1]
    · simp only [flushReceive]
      rw [ih3, hisf1]
    · intro j hj hcf
      simp only [flushReceive]
      cases j with
      | zero =>
        have hc0 : conn i = false := by simpa using hcf
        simp [houtc hc0]
      | succ j' =>
        have hcf' : conn ((i + 1) + j') = false := by
          have e : i + (j' + 1) = (i + 1) + j' := by omega
          rwa [e] at hcf
        have hj' : j' < rest.length := by
          simpa using Nat.lt_of_succ_lt_succ (by simpa using hj)
        have := ih4 j' hj' hcf'
        simpa using this

/-! ## C3: re-queueing of mid-flush failures -/

/-- C3 counterexample: during a flush in which connectivity drops before the
second message, that message is met with a warning and discarded — the final
buffer is empty, so the failed message is NOT re-inserted at the head of the
queue as the claim requires. -/
theorem C3_counterexample :
    (flushBuffer flushCfg flushSt (fun i => i == 0) 9 0).st.buf.messageQueue = [] ∧
    (flushBuffer flushCfg flushSt (fun i => i == 0) 9 0).results.map Prod.snd =
      [Outcome.published { subject := .plain 1 }, Outcome.warnedConnectionLost] :=
  ⟨rfl, rfl⟩

/-- C3 amended: when the initial connectivity check passes, every snapshot
message is re-injected exactly once and in order (never duplicated, never
re-enqueued — the final buffer is empty), and a message that meets a lost
connection mid-flush yields only a connection-lost warning: it is discarded,
not re-inserted at the head.  Only the initial connectivity check re-queues:
if the connection is already gone before the first re-injection, the whole
untouched snapshot is restored in order. -/
theorem C3_amended (cfg : NodeCfg) (st : NodeState) (conn : Nat → Bool)
    (now fresh : Nat) (hAR : cfg.enableAutoReply = false)
    (hfl : st.isFlushing = false) (hne : st.buf.messageQueue ≠ []) :
    (st.connected = true →
      (flushBuffer cfg st conn now fresh).results.map Prod.fst =
        st.buf.messageQueue.map flushClean ∧
      (flushBuffer cfg st conn now fresh).st.buf.messageQueue = [] ∧
      (∀ j, j < st.buf.messageQueue.length → conn j = false →
        ((flushBuffer cfg st conn now fresh).results.map Prod.snd)[j]? =
          some Outcome.warnedConnectionLost)) ∧
    (st.connected = false →
      (flushBuffer cfg st conn now fresh).st.buf.messageQueue =
        st.buf.messageQueue ∧
      (flushBuffer cfg st conn now fresh).results = [] ∧
      (flushBuffer cfg st conn now fresh).abortedRequeued = true) := by
  constructor
  · intro hc
    have hcl : ∀ m ∈ st.buf.messageQueue.map flushClean, m.flushing = true := by
      intro m hm
      obtain ⟨m', -, rfl⟩ := List.mem_map.mp hm
      rfl
    obtain ⟨s1, s2, s3, s4⟩ := flushReceive_spec cfg hAR
      (st.buf.messageQueue.map flushClean)
      { st with isFlushing := true, buf := { st.buf with messageQueue := [] } }
      conn 0 now fresh hcl
    unfold flushBuffer
    rw [if_neg (by simp [hfl]), if_neg hne, if_neg (by simp [hc])]
    dsimp only
    refine ⟨s1, ?_, ?_⟩
    · rw [s2]
    · intro j hj hcf
      exact s4 j (by simpa using hj) (by simpa using hcf)
  · intro hc
    unfold flushBuffer
    rw [if_neg (by simp [hfl]), if_neg hne, if_pos (by simp [hc])]
    exact ⟨rfl, rfl, rfl⟩

/-- C3 witness. -/
theorem C3_amended_witness :
    (flushSt.connected = true →
      (flushBuffer flushCfg flushSt (fun i => i == 0) 9 0).results.map Prod.fst =
        flushSt.buf.messageQueue.map flushClean ∧
      (flushBuffer flushCfg flushSt (fun i => i == 0) 9 0).st.buf.messageQueue = [] ∧
      (∀ j, j < flushSt.buf.messageQueue.length → (fun i => i == 0) j = false →
        ((flushBuffer flushCfg flushSt (fun i => i == 0) 9 0).results.map Prod.snd)[j]? =
          some Outcome.warnedConnectionLost)) ∧
    (flushSt.connected = false →
      (flushBuffer flushCfg flushSt (fun i => i == 0) 9 0).st.buf.messageQueue =
        flushSt.buf.messageQueue ∧
      (flushBuffer flushCfg flushSt (fun i => i == 0) 9 0).results = [] ∧
      (flushBuffer flushCfg flushSt (fun i => i == 0) 9 0).abortedRequeued = true) :=
  C3_amended flushCfg flushSt (fun i => i == 0) 9 0 rfl rfl (by decide)

/-- C5 witness. -/
theorem C5_amended_witness :
    finalDelay 3 (1/4) = exponentialDelay 3 + jitterOf 3 (1/4) ∧
    |jitterOf 3 (1/4)| ≤ exponentialDelay 3 / 10 ∧
    exponentialDelay 3 ≤ 60000 ∧
    [1, 2, 3, 4, 5, 6].map exponentialDelay =
      [5000, 10000, 20000, 40000, 60000, 60000] :=
  C5_amended 3 (1/4) (by norm_num) (by norm_num) (by norm_num)

/-! ## C1: stage order of the publish pipeline -/

/-- `consumeToken` changes at most the token count. -/
theorem consumeToken_only_tokens (st : NodeState) :
    (consumeToken st).1 = { st with tokenBucket := (consumeToken st).1.tokenBucket } := by
  unfold consumeToken
  split <;> rfl

/-- C1 counterexample: a fresh message submitted while disconnected is
buffered without ever passing the rate-limiting stage — even though the token
bucket is empty and the configured action is `drop`, so the limiter (had it
run first, as the claim demands) would have dropped the message.  The
connectivity gate, not the rate limiter, is the first pipeline stage. -/
theorem C1_counterexample :
    (onInput rlCfg rlSt freshMsg 5 0).2 = .buffered true ∧
    (onInput rlCfg rlSt freshMsg 5 0).1.droppedByRateLimit = 0 ∧
    (onInput rlCfg rlSt freshMsg 5 0).1.tokenBucket = 0 ∧
    (canSendMessage rlCfg rlSt 5).2 = false := by
  refine ⟨rfl, rfl, rfl, ?_⟩
  norm_num [canSendMessage, refillTokens, tokensPerMs, capacity, rlCfg, rlSt]

/-- C1 amended: the handler checks the connection status FIRST.  A fresh
message submitted while disconnected bypasses the rate limiter and the batch
stage entirely and goes straight to the durable buffer.  Only for messages
submitted while connected do the stages run in the order rate limiter →
batch aggregator → publish. -/
theorem C1_amended (cfg : NodeCfg) (st : NodeState) (m : Msg) (now fresh : Nat)
    (hAR : cfg.enableAutoReply = false) (hfl : m.flushing = false)
    (hb : m.batched = false) (hrl : m.rateLimited = false) :
    (st.connected = false → cfg.enableBuffer = true →
      (onInput cfg st m now fresh).1.tokenBucket = st.tokenBucket ∧
      (onInput cfg st m now fresh).1.droppedByRateLimit = st.droppedByRateLimit ∧
      (onInput cfg st m now fresh).1.batchQueue = st.batchQueue ∧
      ((onInput cfg st m now fresh).2 = .buffered true ∨
       (onInput cfg st m now fresh).2 = .buffered false ∨
       (onInput cfg st m now fresh).2 = .bufferThrew)) ∧
    (st.connected = true → cfg.enableRateLimit = true →
      (canSendMessage cfg st now).2 = false → cfg.rateLimitAction = .dropAction →
      (onInput cfg st m now fresh).2 = .rateDropped ∧
      (onInput cfg st m now fresh).1.buf = st.buf ∧
      (onInput cfg st m now fresh).1.batchQueue = st.batchQueue) ∧
    (st.connected = true →
      (cfg.enableRateLimit = false ∨ (canSendMessage cfg st now).2 = true) →
      cfg.enableBatch = true →
      (onInput cfg st m now fresh).2 = .batchQueued ∧
      (onInput cfg st m now fresh).1.buf = st.buf) := by
  refine ⟨?_, ?_, ?_⟩
  · intro hc hbuf
    cases hbm : bufferMessage cfg.bufferCfg st.buf (recordOriginalTimes cfg m now) with
    | error e =>
      simp [onInput, hAR, hc, hbuf, hfl, hb, hbm]
    | ok p =>
      obtain ⟨buf', added⟩ := p
      simp only [onInput, hAR, hc, hbuf, hfl, hb, hbm]
      simp only [Bool.false_and, Bool.or_self, Bool.not_false, if_false, if_true]
      cases added <;> simp
  · intro hc hrlE hcan hact
    have hcan' : ¬ (1 ≤ (refillTokens cfg st now).tokenBucket) := by
      simpa [canSendMessage] using hcan
    simp [onInput, canSendMessage, hAR, hc, hrlE, hfl, hb, hrl, hact, hcan']
    exact ⟨rfl, rfl⟩
  · intro hc hor hbatch
    cases hrlE : cfg.enableRateLimit with
    | false =>
      simp [onInput, connectedTail, addToBatch, hAR, hc, hrlE, hfl, hb, hrl, hbatch]
    | true =>
      have hcan : 1 ≤ (refillTokens cfg st now).tokenBucket := by
        rcases hor with h | h
        · rw [hrlE] at h; cases h
        · simpa [canSendMessage] using h
      have hbufEq : (consumeToken (refillTokens cfg st now)).1.buf = st.buf := by
        rw [consumeToken_only_tokens]
        rfl
      have honi : onInput cfg st m now fresh =
          (addToBatch cfg (consumeToken (refillTokens cfg st now)).1 m now,
           .batchQueued) := by
        simp [onInput, connectedTail, canSendMessage, hAR, hc, hrlE, hfl, hb, hrl,
          hbatch, hcan]
      rw [honi]
      exact ⟨rfl, hbufEq⟩

/-- C1 witness. -/
theorem C1_amended_witness :
    (rlSt.connected = false → rlCfg.enableBuffer = true →
      (onInput rlCfg rlSt freshMsg 5 0).1.tokenBucket = rlSt.tokenBucket ∧
      (onInput rlCfg rlSt freshMsg 5 0).1.droppedByRateLimit = rlSt.droppedByRateLimit ∧
      (onInput rlCfg rlSt freshMsg 5 0).1.batchQueue = rlSt.batchQueue ∧
      ((onInput rlCfg rlSt freshMsg 5 0).2 = .buffered true ∨
       (onInput rlCfg rlSt freshMsg 5 0).2 = .buffered false ∨
       (onInput rlCfg rlSt freshMsg 5 0).2 = .bufferThrew)) ∧
    (rlSt.connected = true → rlCfg.enableRateLimit = true →
      (canSendMessage rlCfg rlSt 5).2 = false → rlCfg.rateLimitAction = .dropAction →
      (onInput rlCfg rlSt freshMsg 5 0).2 = .rateDropped ∧
      (onInput rlCfg rlSt freshMsg 5 0).1.buf = rlSt.buf ∧
      (onInput rlCfg rlSt freshMsg 5 0).1.batchQueue = rlSt.batchQueue) ∧
    (rlSt.connected = true →
      (rlCfg.enableRateLimit = false ∨ (canSendMessage rlCfg rlSt 5).2 = true) →
      rlCfg.enableBatch = true →
      (onInput rlCfg rlSt freshMsg 5 0).2 = .batchQueued ∧
      (onInput rlCfg rlSt freshMsg 5 0).1.buf = rlSt.buf) :=
  C1_amended rlCfg rlSt freshMsg 5 0 rfl rfl rfl rfl

/-! ## C9: delayed re-submissions skip the batch stage -/

/-- A message carrying the `_rateLimited` mark is never appended to the batch
queue by the input handler, whatever the configuration and state. -/
theorem onInput_rateLimited_no_batch (cfg : NodeCfg) (st : NodeState) (m : Msg)
    (now fresh : Nat) (hm : m.rateLimited = true) :
    (onInput cfg st m now fresh).1.batchQueue = st.batchQueue ∧
    (onInput cfg st m now fresh).2 ≠ .batchQueued := by
  unfold onInput connectedTail
  simp only [hm, Bool.not_true, Bool.and_false, Bool.false_and]
  repeat' split
  all_goals
    first
      | exact ⟨by rw [doPublish_intervalOnly], doPublish_not_batchQueued _ _ _ _ _⟩
      | refine ⟨rfl, by simp⟩
      | simp_all

/-- A `_rateLimited` message submitted while connected (auto-reply off) skips
both the rate-limit and the batch gate and reaches the publish step. -/
theorem onInput_rateLimited_connected (cfg : NodeCfg) (st : NodeState) (m : Msg)
    (now fresh : Nat) (hAR : cfg.enableAutoReply = false) (hm : m.rateLimited = true)
    (hc : st.connected = true) :
    onInput cfg st m now fresh = doPublish cfg st m now fresh := by
  simp [onInput, connectedTail, hAR, hm, hc]

/-- The publish step for the plain JSON format with a truthy subject. -/
theorem doPublish_json (cfg : NodeCfg) (st : NodeState) (m : Msg) (now fresh : Nat)
    (hfmt : cfg.dataformat = .jsonFmt)
    (hsub : truthy (jsOr m.topic cfg.datapointid) = true) :
    doPublish cfg st m now fresh =
      (st, .published { subject := .plain ((jsOr m.topic cfg.datapointid).getD 0) }) := by
  simp [doPublish, hfmt, hsub]

/-- C9: a message re-submitted from the rate limiter's delay queue is marked
`_rateLimited` and is never appended to the BatchQueue, even with batching
enabled; under a live connection (JSON format, subject present) it proceeds
to the publish step and is published. -/
theorem C9_theorem (cfg : NodeCfg) (st : NodeState) (now fresh : Nat)
    (hbatch : cfg.enableBatch = true) :
    ((processDelayStep cfg st now fresh).1.batchQueue = st.batchQueue ∧
     (processDelayStep cfg st now fresh).2 ≠ some Outcome.batchQueued) ∧
    (∀ dm rest, st.delayQueue = dm :: rest → st.connected = true →
      cfg.enableAutoReply = false → cfg.dataformat = .jsonFmt →
      truthy (jsOr dm.topic cfg.datapointid) = true →
      1 ≤ (refillTokens cfg st now).tokenBucket →
      (processDelayStep cfg st now fresh).2 =
        some (.published
          { subject := .plain ((jsOr dm.topic cfg.datapointid).getD 0) })) := by
  constructor
  · rcases hq : st.delayQueue with _ | ⟨dm, rest⟩
    · simp [processDelayStep, hq]
    · obtain ⟨b1, b2⟩ := onInput_rateLimited_no_batch cfg
        (consumeToken { refillTokens cfg st now with delayQueue := rest }).1
        { dm with rateLimited := true } now fresh rfl
      have hbq : (consumeToken { refillTokens cfg st now with
          delayQueue := rest }).1.batchQueue = st.batchQueue := by
        rw [consumeToken_only_tokens]
        rfl
      simp only [processDelayStep, hq, canSendMessage, decide_eq_true_eq]
      by_cases hcan : 1 ≤ (refillTokens cfg st now).tokenBucket
      · rw [if_pos hcan]
        exact ⟨b1.trans hbq, fun h => b2 (Option.some.inj h)⟩
      · rw [if_neg hcan]
        exact ⟨rfl, by simp⟩
  · intro dm rest hq hc hAR hfmt hsub hcan
    have hcc : (consumeToken { refillTokens cfg st now with
        delayQueue := rest }).1.connected = true := by
      rw [consumeToken_only_tokens]
      exact hc
    have honi := onInput_rateLimited_connected cfg
      (consumeToken { refillTokens cfg st now with delayQueue := rest }).1
      { dm with rateLimited := true } now fresh hAR rfl hcc
    have hpub := doPublish_json cfg
      (consumeToken { refillTokens cfg st now with delayQueue := rest }).1
      { dm with rateLimited := true } now fresh hfmt (by simpa using hsub)
    simp only [processDelayStep, hq, canSendMessage, decide_eq_true_eq]
    rw [if_pos hcan, honi, hpub]

/-- C9 witness. -/
theorem C9_theorem_witness :
    ((processDelayStep delayCfg delaySt 0 0).1.batchQueue = delaySt.batchQueue ∧
     (processDelayStep delayCfg delaySt 0 0).2 ≠ some Outcome.batchQueued) ∧
    (∀ dm rest, delaySt.delayQueue = dm :: rest → delaySt.connected = true →
      delayCfg.enableAutoReply = false → delayCfg.dataformat = .jsonFmt →
      truthy (jsOr dm.topic delayCfg.datapointid) = true →
      1 ≤ (refillTokens delayCfg delaySt 0).tokenBucket →
      (processDelayStep delayCfg delaySt 0 0).2 =
        some (.published
          { subject := .plain ((jsOr dm.topic delayCfg.datapointid).getD 0) })) :=
  C9_theorem delayCfg delaySt 0 0 rfl

/-! ## C10: original timestamps are recorded and carried through flushes -/

/-- Recording: a message without `_originalTimestamp` gets the submission
time stamped on it. -/
theorem recordOriginalTimes_timestamp (cfg : NodeCfg) (m : Msg) (now : Nat)
    (h : m.originalTimestamp = none) :
    (recordOriginalTimes cfg m now).originalTimestamp = some now := by
  unfold recordOriginalTimes
  rw [h]
  simp only [truthy, Bool.false_eq_true, if_false]
  repeat' split
  all_goals rfl

/-- Recording: an event-format message with a start time and no recorded
original start time gets it recorded verbatim. -/
theorem recordOriginalTimes_startTime (cfg : NodeCfg) (m : Msg) (now : Nat)
    (hf : cfg.dataformat = .eventFmt) (hs : truthy m.startTime = true)
    (ho : truthy m.originalStartTime = false) :
    (recordOriginalTimes cfg m now).originalStartTime = m.startTime := by
  unfold recordOriginalTimes
  simp only [hf, if_true]
  repeat' split
  all_goals simp_all

/-- The size cache does not disturb the recorded timestamps. -/
theorem cacheSize_preserves_times (m : Msg) :
    (cacheSize m).originalTimestamp = m.originalTimestamp ∧
    (cacheSize m).originalStartTime = m.originalStartTime := by
  unfold cacheSize calculateMessageSize
  repeat' split
  all_goals exact ⟨rfl, rfl⟩

/-- The buffering branch appends exactly the time-stamped, size-cached
message (count mode, buffer not full). -/
theorem onInput_buffering_append (cfg : NodeCfg) (st : NodeState) (m : Msg)
    (now fresh : Nat) (hAR : cfg.enableAutoReply = false)
    (hfl : m.flushing = false) (hb : m.batched = false)
    (hc : st.connected = false) (hbuf : cfg.enableBuffer = true)
    (h1 : cfg.bufferCfg.sizeType = .countMode)
    (hlen : st.buf.messageQueue.length < cfg.bufferCfg.bufferSize) :
    onInput cfg st m now fresh =
      ({ st with buf := { st.buf with messageQueue :=
          st.buf.messageQueue ++ [cacheSize (recordOriginalTimes cfg m now)] } },
       .buffered true) := by
  simp [onInput, hAR, hc, hbuf, hfl, hb,
    bufferMessage_count_notFull cfg.bufferCfg st.buf (recordOriginalTimes cfg m now)
      h1 hlen]

/-- The `uns_value` publish carries a recorded original timestamp instead of
the publish-time clock (auto datatype, string payload). -/
theorem unsValuePublish_carries (cfg : NodeCfg) (m : Msg) (now₁ : Nat) (sv t0 : Nat)
    (hov : cfg.datatypeOverride = none) (hpay : m.payload = .vstr sv)
    (ht : m.originalTimestamp = some t0) (ht0 : t0 ≠ 0) :
    unsValuePublish cfg m now₁ =
      .published { subject := .unsSubject cfg.datapointid, datatype := some 4,
                   timestamp := some t0 } := by
  simp [unsValuePublish, unsAutoDatatype, jsOrD, hov, hpay, ht, ht0]

/-- The `event` publish of a point event carries the recorded original start
time as both start and end time, instead of the publish-time clock. -/
theorem eventPublish_point_carries (cfg : NodeCfg) (stx : NodeState) (m : Msg)
    (now₁ fresh : Nat) (s : Nat) (het : m.etype = some .point) (hmid : m.mid = none)
    (hos : m.originalStartTime = some s) (hs : s ≠ 0) :
    eventPublish cfg stx m now₁ fresh =
      (stx, .published { subject := .eventSubject cfg.datapointid, eid := some fresh,
                         startTime := some s, endTime := some s }) := by
  simp [eventPublish, het, hmid, truthy, jsOr, jsOrD, hs, hos]

/-- C10: messages that enter the durable buffer (or the batch queue) have
their original submission timestamp — and for event-format messages their
original start time — recorded at buffering/batching time, and the eventual
publish after a flush emits those recorded values rather than the flush-time
clock. -/
theorem C10_theorem (cfg : NodeCfg) (st : NodeState) (m : Msg) (now₀ : Nat)
    (hAR : cfg.enableAutoReply = false) (hfl : m.flushing = false)
    (hb : m.batched = false) (hot : m.originalTimestamp = none) :
    (st.connected = false → cfg.enableBuffer = true →
      cfg.bufferCfg.sizeType = .countMode →
      st.buf.messageQueue.length < cfg.bufferCfg.bufferSize →
      ∀ fresh, (onInput cfg st m now₀ fresh).1.buf.messageQueue =
        st.buf.messageQueue ++ [cacheSize (recordOriginalTimes cfg m now₀)]) ∧
    (st.connected = true → cfg.enableBatch = true → cfg.enableRateLimit = false →
      m.rateLimited = false → ∀ fresh,
      (onInput cfg st m now₀ fresh).1.batchQueue =
        st.batchQueue ++ [recordOriginalTimes cfg m now₀]) ∧
    (recordOriginalTimes cfg m now₀).originalTimestamp = some now₀ ∧
    (cacheSize (recordOriginalTimes cfg m now₀)).originalTimestamp = some now₀ ∧
    (cfg.dataformat = .eventFmt → truthy m.startTime = true →
      truthy m.originalStartTime = false →
      (cacheSize (recordOriginalTimes cfg m now₀)).originalStartTime = m.startTime) ∧
    (∀ (m' : Msg) (now₁ sv t0 : Nat),
      cfg.datatypeOverride = none → m'.payload = .vstr sv →
      m'.originalTimestamp = some t0 → t0 ≠ 0 →
      unsValuePublish cfg m' now₁ =
        .published { subject := .unsSubject cfg.datapointid, datatype := some 4,
                     timestamp := some t0 }) ∧
    (∀ (m' : Msg) (stx : NodeState) (now₁ fresh s : Nat),
      m'.etype = some .point → m'.mid = none →
      m'.originalStartTime = some s → s ≠ 0 →
      eventPublish cfg stx m' now₁ fresh =
        (stx, .published { subject := .eventSubject cfg.datapointid,
                           eid := some fresh,
                           startTime := some s, endTime := some s })) := by
  have hrec := recordOriginalTimes_timestamp cfg m now₀ hot
  have hcache := cacheSize_preserves_times (recordOriginalTimes cfg m now₀)
  refine ⟨?_, ?_, hrec, ?_, ?_, ?_, ?_⟩
  · intro hc hbuf h1 hlen fresh
    rw [onInput_buffering_append cfg st m now₀ fresh hAR hfl hb hc hbuf h1 hlen]
  · intro hc hbatch hrlE hrl fresh
    simp [onInput, connectedTail, addToBatch, hAR, hc, hbatch, hrlE, hfl, hb, hrl]
  · rw [hcache.1, hrec]
  · intro hf hs ho
    rw [hcache.2, recordOriginalTimes_startTime cfg m now₀ hf hs ho]
  · intro m' now₁ sv t0 hov hpay ht ht0
    exact unsValuePublish_carries cfg m' now₁ sv t0 hov hpay ht ht0
  · intro m' stx now₁ fresh s het hmid hos hs
    exact eventPublish_point_carries cfg stx m' now₁ fresh s het hmid hos hs

/-- C10 witness. -/
theorem C10_theorem_witness :
    (({ connected := false } : NodeState).connected = false → tsCfg.enableBuffer = true →
      tsCfg.bufferCfg.sizeType = .countMode →
      ({ connected := false } : NodeState).buf.messageQueue.length <
        tsCfg.bufferCfg.bufferSize →
      ∀ fresh, (onInput tsCfg { connected := false } tsMsg 100 fresh).1.buf.messageQueue =
        ({ connected := false } : NodeState).buf.messageQueue ++
          [cacheSize (recordOriginalTimes tsCfg tsMsg 100)]) ∧
    (({ connected := false } : NodeState).connected = true → tsCfg.enableBatch = true →
      tsCfg.enableRateLimit = false → tsMsg.rateLimited = false → ∀ fresh,
      (onInput tsCfg { connected := false } tsMsg 100 fresh).1.batchQueue =
        ({ connected := false } : NodeState).batchQueue ++
          [recordOriginalTimes tsCfg tsMsg 100]) ∧
    (recordOriginalTimes tsCfg tsMsg 100).originalTimestamp = some 100 ∧
    (cacheSize (recordOriginalTimes tsCfg tsMsg 100)).originalTimestamp = some 100 ∧
    (tsCfg.dataformat = .eventFmt → truthy tsMsg.startTime = true →
      truthy tsMsg.originalStartTime = false →
      (cacheSize (recordOriginalTimes tsCfg tsMsg 100)).originalStartTime =
        tsMsg.startTime) ∧
    (∀ (m' : Msg) (now₁ sv t0 : Nat),
      tsCfg.datatypeOverride = none → m'.payload = .vstr sv →
      m'.originalTimestamp = some t0 → t0 ≠ 0 →
      unsValuePublish tsCfg m' now₁ =
        .published { subject := .unsSubject tsCfg.datapointid, datatype := some 4,
                     timestamp := some t0 }) ∧
    (∀ (m' : Msg) (stx : NodeState) (now₁ fresh s : Nat),
      m'.etype = some .point → m'.mid = none →
      m'.originalStartTime = some s → s ≠ 0 →
      eventPublish tsCfg stx m' now₁ fresh =
        (stx, .published { subject := .eventSubject tsCfg.datapointid,
                           eid := some fresh,
                           startTime := some s, endTime := some s })) :=
  C10_theorem tsCfg { connected := false } tsMsg 100 rfl rfl rfl rfl

/-! ## C6: drop-oldest keeps exactly the last C messages, flush delivers them -/

/-- JS `a || b` keeps a truthy left operand. -/
theorem jsOr_of_truthy (a b : Option Nat) (h : truthy a = true) : jsOr a b = a := by
  simp [jsOr, h]

/-- The size cache does not disturb the routing subject. -/
theorem cacheSize_topic (m : Msg) : (cacheSize m).topic = m.topic := by
  unfold cacheSize calculateMessageSize
  repeat' split
  all_goals rfl

/-- Under a stable connection every flushed JSON message with a truthy topic
is published. -/
theorem flushReceive_json_published (cfg : NodeCfg) (hAR : cfg.enableAutoReply = false)
    (hfmt : cfg.dataformat = .jsonFmt) :
    ∀ (ms : List Msg) (st : NodeState) (i now fresh : Nat),
      (∀ m ∈ ms, m.flushing = true ∧ truthy m.topic = true) →
      ∀ p ∈ (flushReceive cfg st ms (fun _ => true) i now fresh).2,
        p.2 = .published
          { subject := .plain ((jsOr p.1.topic cfg.datapointid).getD 0) } := by
  intro ms
  induction ms with
  | nil =>
    intro st i now fresh _ p hp
    simp [flushReceive] at hp
  | cons m rest ih =>
    intro st i now fresh hms p hp
    have hm := hms m (List.mem_cons_self m rest)
    have hsub : truthy (jsOr m.topic cfg.datapointid) = true := by
      rw [jsOr_of_truthy _ _ hm.2]
      exact hm.2
    have hhead : onInput cfg { st with connected := (fun _ : Nat => true) i } m now fresh
        = ({ st with connected := (fun _ : Nat => true) i },
           .published { subject := .plain ((jsOr m.topic cfg.datapointid).getD 0) }) := by
      rw [onInput_flushing_connected cfg _ m now fresh hAR hm.1 rfl,
        doPublish_json cfg _ m now fresh hfmt hsub]
    simp only [flushReceive, hhead] at hp
    rcases (List.mem_cons).mp hp with hph | hpt
    · rw [hph]
    · exact ih _ (i + 1) now fresh
        (fun m' h => hms m' (List.mem_cons_of_mem m h)) p hpt

/-- C6: with capacity C (count mode, drop-oldest) and N > C enqueues from an
empty buffer while disconnected, the buffer holds exactly the last C messages
in original order and the dropped counter equals N − C; a flush under a
stable connection re-injects exactly those messages in order and publishes
every one of them. -/
theorem C6_theorem (cfg : NodeCfg) (ms : List Msg) (now fresh : Nat)
    (hAR : cfg.enableAutoReply = false) (hfmt : cfg.dataformat = .jsonFmt)
    (h1 : cfg.bufferCfg.sizeType = .countMode) (h2 : cfg.bufferCfg.mode = .dropOldest)
    (hC : 1 ≤ cfg.bufferCfg.bufferSize) (hN : cfg.bufferCfg.bufferSize < ms.length)
    (htop : ∀ m ∈ ms, truthy m.topic = true) :
    enqueueList cfg.bufferCfg ⟨[], 0⟩ ms = .ok
      ⟨(ms.map cacheSize).drop (ms.length - cfg.bufferCfg.bufferSize),
        ms.length - cfg.bufferCfg.bufferSize⟩ ∧
    ((ms.map cacheSize).drop (ms.length - cfg.bufferCfg.bufferSize)).length =
      cfg.bufferCfg.bufferSize ∧
    (flushBuffer cfg
        { connected := true,
          buf := ⟨(ms.map cacheSize).drop (ms.length - cfg.bufferCfg.bufferSize),
                  ms.length - cfg.bufferCfg.bufferSize⟩ }
        (fun _ => true) now fresh).results.map Prod.fst =
      ((ms.map cacheSize).drop (ms.length - cfg.bufferCfg.bufferSize)).map flushClean ∧
    ∀ p ∈ (flushBuffer cfg
        { connected := true,
          buf := ⟨(ms.map cacheSize).drop (ms.length - cfg.bufferCfg.bufferSize),
                  ms.length - cfg.bufferCfg.bufferSize⟩ }
        (fun _ => true) now fresh).results,
      p.2 = .published
        { subject := .plain ((jsOr p.1.topic cfg.datapointid).getD 0) } := by
  have henq := enqueueList_count_dropOldest cfg.bufferCfg h1 h2 hC ms [] 0 (by simp)
  have hlenQ : ((ms.map cacheSize).drop
      (ms.length - cfg.bufferCfg.bufferSize)).length = cfg.bufferCfg.bufferSize := by
    simp only [List.length_drop, List.length_map]
    omega
  have hne : (ms.map cacheSize).drop (ms.length - cfg.bufferCfg.bufferSize) ≠ [] := by
    apply List.length_pos.mp
    rw [hlenQ]
    omega
  have hflagged : ∀ m' ∈ ((ms.map cacheSize).drop
      (ms.length - cfg.bufferCfg.bufferSize)).map flushClean,
      m'.flushing = true ∧ truthy m'.topic = true := by
    intro m' hm'
    obtain ⟨m₀, hm₀, rfl⟩ := List.mem_map.mp hm'
    have hm₀' : m₀ ∈ ms.map cacheSize := List.mem_of_mem_drop hm₀
    obtain ⟨m₁, hm₁, rfl⟩ := List.mem_map.mp hm₀'
    refine ⟨rfl, ?_⟩
    show truthy (flushClean (cacheSize m₁)).topic = true
    have : (flushClean (cacheSize m₁)).topic = m₁.topic := by
      show (cacheSize m₁).topic = m₁.topic
      exact cacheSize_topic m₁
    rw [this]
    exact htop m₁ hm₁
  refine ⟨?_, hlenQ, ?_, ?_⟩
  · simpa using henq
  · obtain ⟨s1, s2, s3, s4⟩ := flushReceive_spec cfg hAR
      (((ms.map cacheSize).drop (ms.length - cfg.bufferCfg.bufferSize)).map flushClean)
      { connected := true,
        buf := ⟨[], ms.length - cfg.bufferCfg.bufferSize⟩,
        isFlushing := true }
      (fun _ => true) 0 now fresh (fun m' h => (hflagged m' h).1)
    unfold flushBuffer
    rw [if_neg (by simp), if_neg hne, if_neg (by simp)]
    exact s1
  · intro p hp
    have hrec := flushReceive_json_published cfg hAR hfmt
      (((ms.map cacheSize).drop (ms.length - cfg.bufferCfg.bufferSize)).map flushClean)
      { connected := true,
        buf := ⟨[], ms.length - cfg.bufferCfg.bufferSize⟩,
        isFlushing := true }
      0 now fresh hflagged p
    apply hrec
    revert hp
    unfold flushBuffer
    rw [if_neg (by simp), if_neg hne, if_neg (by simp)]
    exact fun h => h

/-- C6 witness. -/
theorem C6_theorem_witness :
    enqueueList c6Cfg.bufferCfg ⟨[], 0⟩ c6Msgs = .ok
      ⟨(c6Msgs.map cacheSize).drop (c6Msgs.length - c6Cfg.bufferCfg.bufferSize),
        c6Msgs.length - c6Cfg.bufferCfg.bufferSize⟩ :=
  (C6_theorem c6Cfg c6Msgs 9 0 rfl rfl rfl rfl (by decide) (by decide)
    (by decide)).1

/-! ## C7: snapshot round trip and internal flags -/

/-- C7 counterexample: with the context backend, `saveBuffer` persists the
live `messageQueue` object itself — the cleaned copy is only written by the
file backend — so the persisted snapshot retains the `_rateLimited` flag,
refuting "the flags are omitted when the snapshot is persisted (in every
configured persistence backend)". -/
theorem C7_counterexample :
    (saveBuffer true .contextStore flaggedBuf {} 100 1 false).ctxQueue =
      some [flaggedMsg] ∧
    flaggedMsg.rateLimited = true :=
  ⟨rfl, rfl⟩

/-- Loading a message cleans it the same whether or not it was already
stripped on save. -/
theorem cleanOnLoad_stripFlags (m : Msg) :
    cleanOnLoad (stripFlags m) = cleanOnLoad m := by
  unfold cleanOnLoad stripFlags
  rfl

/-- C7 amended: for every active persistence backend, saving a non-empty
buffer and then loading it yields the same ordered queue (up to the per-entry
load cleanup, which is the identity on flag-free, size-cached messages) and
the same dropped counter, and every restored message has all internal
processing flags cleared.  The flags are stripped in the persisted snapshot
only by the file backend; the context backend persists the live queue,
flags included, and relies on the load-time cleanup. -/
theorem C7_amended (pers : Persistence) (st : BufferState) (store : Store)
    (st₀ : BufferState) (now nid : Nat)
    (hp : pers ≠ .noPersist) (hne : st.messageQueue ≠ []) :
    (loadBuffer true pers (saveBuffer true pers st store now nid false) st₀).messageQueue
      = st.messageQueue.map cleanOnLoad ∧
    (loadBuffer true pers (saveBuffer true pers st store now nid false) st₀).droppedMessages
      = st.droppedMessages ∧
    (∀ m' ∈ (loadBuffer true pers
        (saveBuffer true pers st store now nid false) st₀).messageQueue,
      m'.flushing = false ∧ m'.batched = false ∧ m'.rateLimited = false ∧
      m'.autoReplyProcessed = false) ∧
    ((∀ m ∈ st.messageQueue, stripFlags m = m ∧ m.bufferSize.isSome = true) →
      (loadBuffer true pers
        (saveBuffer true pers st store now nid false) st₀).messageQueue
        = st.messageQueue) ∧
    (usesFile pers = true →
      ∀ blob, (saveBuffer true pers st store now nid false).fileData = some blob →
        blob.queue = st.messageQueue.map stripFlags) := by
  have hmapne : st.messageQueue.map stripFlags ≠ [] := by
    simpa using hne
  have hload : (loadBuffer true pers (saveBuffer true pers st store now nid false)
      st₀).messageQueue = st.messageQueue.map cleanOnLoad ∧
      (loadBuffer true pers (saveBuffer true pers st store now nid false)
        st₀).droppedMessages = st.droppedMessages ∧
      (usesFile pers = true →
        ∀ blob, (saveBuffer true pers st store now nid false).fileData = some blob →
          blob.queue = st.messageQueue.map stripFlags) := by
    cases pers with
    | noPersist => exact absurd rfl hp
    | contextStore =>
      refine ⟨?_, ?_, ?_⟩ <;>
        simp [saveBuffer, loadBuffer, usesContext, usesFile, hne, hmapne]
    | fileStore =>
      refine ⟨?_, ?_, ?_⟩ <;>
        simp [saveBuffer, loadBuffer, usesContext, usesFile, hne, hmapne,
          List.map_map, Function.comp_def, cleanOnLoad_stripFlags]
    | bothStores =>
      refine ⟨?_, ?_, ?_⟩ <;>
        simp [saveBuffer, loadBuffer, usesContext, usesFile, hne, hmapne,
          List.map_map, Function.comp_def, cleanOnLoad_stripFlags]
  refine ⟨hload.1, hload.2.1, ?_, ?_, hload.2.2⟩
  · intro m' hm'
    rw [hload.1] at hm'
    obtain ⟨m₀, -, rfl⟩ := List.mem_map.mp hm'
    cases hbs : m₀.bufferSize with
    | none => simp [cleanOnLoad, stripFlags, hbs]
    | some s => simp [cleanOnLoad, stripFlags, hbs]
  · intro hclean
    rw [hload.1]
    have : ∀ m ∈ st.messageQueue, cleanOnLoad m = m := by
      intro m hm
      obtain ⟨h1, h2⟩ := hclean m hm
      cases hbs : m.bufferSize with
      | none => rw [hbs] at h2; simp at h2
      | some s => simp [cleanOnLoad, h1, hbs]
    calc st.messageQueue.map cleanOnLoad
        = st.messageQueue.map id := List.map_congr_left this
      _ = st.messageQueue := List.map_id _

/-- C7 witness. -/
theorem C7_amended_witness :
    (loadBuffer true .bothStores
        (saveBuffer true .bothStores flaggedBuf {} 100 1 false) {}).messageQueue
      = flaggedBuf.messageQueue.map cleanOnLoad ∧
    (loadBuffer true .bothStores
        (saveBuffer true .bothStores flaggedBuf {} 100 1 false) {}).droppedMessages
      = flaggedBuf.droppedMessages ∧
    (∀ m' ∈ (loadBuffer true .bothStores
        (saveBuffer true .bothStores flaggedBuf {} 100 1 false) {}).messageQueue,
      m'.flushing = false ∧ m'.batched = false ∧ m'.rateLimited = false ∧
      m'.autoReplyProcessed = false) ∧
    ((∀ m ∈ flaggedBuf.messageQueue, stripFlags m = m ∧ m.bufferSize.isSome = true) →
      (loadBuffer true .bothStores
        (saveBuffer true .bothStores flaggedBuf {} 100 1 false) {}).messageQueue
        = flaggedBuf.messageQueue) ∧
    (usesFile .bothStores = true →
      ∀ blob, (saveBuffer true .bothStores flaggedBuf {} 100 1 false).fileData
          = some blob →
        blob.queue = flaggedBuf.messageQueue.map stripFlags) :=
  C7_amended .bothStores flaggedBuf {} {} 100 1 (by decide) (by decide)

/-! ## C8: token-bucket invariant and saturation -/

/-- A refill over zero elapsed time with in-capacity tokens is a no-op on the
token count. -/
theorem refillTokens_stable (cfg : NodeCfg) (st : NodeState) (now : Nat) (j : ℚ)
    (ht : st.tokenBucket = j) (hj : j ≤ capacity cfg) (hl : st.lastRefillTime = now) :
    refillTokens cfg st now = { st with tokenBucket := j, lastRefillTime := now } := by
  unfold refillTokens
  rw [hl, ht]
  simp [min_eq_left hj]

/-- Each token-bucket operation preserves the capacity bound. -/
theorem tbStep_le (cfg : NodeCfg) (st : NodeState) (op : TBOp)
    (h : st.tokenBucket ≤ capacity cfg) :
    (tbStep cfg st op).tokenBucket ≤ capacity cfg := by
  cases op with
  | refillOp now =>
    simp only [tbStep, refillTokens]
    exact min_le_right _ _
  | consumeOp =>
    simp only [tbStep]
    unfold consumeToken
    split
    · simp only
      linarith
    · exact h

/-- The capacity bound is preserved along any operation sequence. -/
theorem tbRun_le (cfg : NodeCfg) : ∀ (ops : List TBOp) (st : NodeState),
    st.tokenBucket ≤ capacity cfg → (tbRun cfg st ops).tokenBucket ≤ capacity cfg := by
  intro ops
  induction ops with
  | nil => intro st h; exact h
  | cons op rest ih => intro st h; exact ih _ (tbStep_le cfg st op h)

/-- Draining lemma: with `j` whole tokens available at the current instant,
`n ≤ j` immediate submissions all succeed and leave `j − n` tokens. -/
theorem rlSubmitN_drain (cfg : NodeCfg) (now : Nat) :
    ∀ (n j : Nat) (st : NodeState), n ≤ j → j ≤ cfg.rateLimit + cfg.rateLimitBurst →
      st.tokenBucket = (j : ℚ) → st.lastRefillTime = now →
      (rlSubmitN cfg now n st).2 = n ∧
      (rlSubmitN cfg now n st).1.tokenBucket = ((j - n : Nat) : ℚ) ∧
      (rlSubmitN cfg now n st).1.lastRefillTime = now := by
  intro n
  induction n with
  | zero =>
    intro j st _ _ ht hl
    refine ⟨rfl, ?_, hl⟩
    simpa using ht
  | succ n ih =>
    intro j st hnj hjcap ht hl
    have hjcap' : (j : ℚ) ≤ capacity cfg := by
      unfold capacity
      exact_mod_cast hjcap
    have h1j : (1 : ℚ) ≤ (j : ℚ) := by
      exact_mod_cast (show 1 ≤ j by omega)
    have hr := refillTokens_stable cfg st now (j : ℚ) ht hjcap' hl
    have hp : rlSubmit cfg st now
        = ({ st with tokenBucket := (j : ℚ) - 1, lastRefillTime := now }, true) := by
      unfold rlSubmit canSendMessage
      rw [hr]
      simp only [decide_eq_true_eq]
      rw [if_pos h1j]
      unfold consumeToken
      rw [if_pos h1j]
    have hcast : (j : ℚ) - 1 = ((j - 1 : Nat) : ℚ) := by
      rw [Nat.cast_sub (by omega), Nat.cast_one]
    obtain ⟨i1, i2, i3⟩ := ih (j - 1)
      { st with tokenBucket := (j : ℚ) - 1, lastRefillTime := now }
      (by omega) (by omega) hcast rfl
    refine ⟨?_, ?_, ?_⟩
    · simp only [rlSubmitN, hp, if_true, i1]
      omega
    · simp only [rlSubmitN, hp, i2]
      congr 1
      omega
    · simp only [rlSubmitN, hp, i3]

/-- C8: the token bucket never exceeds its capacity `rate + burst` across any
sequence of refills and consumes, consuming requires a whole token, and from
a full bucket exactly `rate + burst` instantaneous submissions succeed before
the next one is refused. -/
theorem C8_theorem (cfg : NodeCfg) :
    (∀ (ops : List TBOp) (st : NodeState), st.tokenBucket ≤ capacity cfg →
      (tbRun cfg st ops).tokenBucket ≤ capacity cfg) ∧
    (∀ st : NodeState, st.tokenBucket < 1 → consumeToken st = (st, false)) ∧
    (∀ (st : NodeState) (now : Nat),
      st.tokenBucket = capacity cfg → st.lastRefillTime = now →
      (rlSubmitN cfg now (cfg.rateLimit + cfg.rateLimitBurst) st).2 =
        cfg.rateLimit + cfg.rateLimitBurst ∧
      (rlSubmit cfg (rlSubmitN cfg now (cfg.rateLimit + cfg.rateLimitBurst) st).1
        now).2 = false) := by
  refine ⟨tbRun_le cfg, ?_, ?_⟩
  · intro st h
    unfold consumeToken
    rw [if_neg (by linarith)]
  · intro st now ht hl
    have htc : st.tokenBucket = ((cfg.rateLimit + cfg.rateLimitBurst : Nat) : ℚ) := by
      rw [ht]
      unfold capacity
      push_cast
      ring
    obtain ⟨i1, i2, i3⟩ := rlSubmitN_drain cfg now
      (cfg.rateLimit + cfg.rateLimitBurst) (cfg.rateLimit + cfg.rateLimitBurst)
      st le_rfl le_rfl htc hl
    refine ⟨i1, ?_⟩
    have i2' : (rlSubmitN cfg now (cfg.rateLimit + cfg.rateLimitBurst) st).1.tokenBucket
        = (0 : ℚ) := by
      rw [i2]
      simp
    have hr := refillTokens_stable cfg
      (rlSubmitN cfg now (cfg.rateLimit + cfg.rateLimitBurst) st).1 now 0 i2'
      (by unfold capacity; positivity) i3
    unfold rlSubmit canSendMessage
    rw [hr]
    simp only [decide_eq_true_eq]
    rw [if_neg (by norm_num : ¬ ((1 : ℚ) ≤ (0 : ℚ)))]

/-- C8 witness. -/
theorem C8_theorem_witness :
    (tbRun tbCfg tbSt [TBOp.consumeOp, TBOp.refillOp 70]).tokenBucket ≤
      capacity tbCfg ∧
    consumeToken tbLowSt = (tbLowSt, false) ∧
    ((rlSubmitN tbCfg 50 (tbCfg.rateLimit + tbCfg.rateLimitBurst) tbSt).2 =
        tbCfg.rateLimit + tbCfg.rateLimitBurst ∧
     (rlSubmit tbCfg
        (rlSubmitN tbCfg 50 (tbCfg.rateLimit + tbCfg.rateLimitBurst) tbSt).1 50).2 =
        false) :=
  ⟨(C8_theorem tbCfg).1 [TBOp.consumeOp, TBOp.refillOp 70] tbSt le_rfl,
   (C8_theorem tbCfg).2.1 tbLowSt (by norm_num [tbLowSt]),
   (C8_theorem tbCfg).2.2 tbSt 50 rfl rfl⟩

end NatsSuite
